import Mathlib

/-!
FogPad VST adapter (`src/vst.cpp`): a shallow embedding.

The plugin class `Igorski::FogPad` is embedded as a record of its member
variables; each member function becomes a function on that record.

* A `float` is its 32-bit IEEE-754 pattern, a `double` (`ParamValue`) its
  64-bit pattern.  Arithmetic and conversions of the C++ target are not
  interpreted: they are the fields of `FloatEnv`, over which every function
  that needs them is parameterised.  Comparison (`==`, `!=`) is interpreted.
* The parameter ids of `paramids.h` are the fields of `ParamIds`.
* Host objects (parameter queues, streams, bus lists) are plain data.
* Calls into the signal chain are recorded, in order, in the ghost field
  `FogPad.trace`.
-/

namespace Igorski

/-! ## Result codes (`tresult`) and sample sizes -/

/-- The code `kResultOk` of the host SDK. -/
def kResultOk : Int := 0
/-- The code `kResultTrue` of the host SDK, the same value as `kResultOk`. -/
def kResultTrue : Int := 0
/-- The code `kResultFalse` of the host SDK. -/
def kResultFalse : Int := 1

/-- Symbolic sample size of 32-bit samples. -/
def kSample32 : Int := 0
/-- Symbolic sample size of 64-bit samples. -/
def kSample64 : Int := 1

/-! ## Floating-point values as bit patterns -/

/-- One byte of a stream or of memory. -/
abbrev Byte := Fin 256

/-- A C++ `float`: its 32-bit pattern. -/
structure Float32 where
  bits : Nat
  isLt : bits < 4294967296
  deriving DecidableEq, Repr

/-- A C++ `double` (the SDK type `ParamValue`): its 64-bit pattern. -/
structure Float64 where
  bits : Nat
  isLt : bits < 18446744073709551616
  deriving DecidableEq, Repr

namespace Float32

/-- The float with the given pattern, reduced modulo `2^32`. -/
def ofBits (n : Nat) : Float32 := ⟨n % 4294967296, Nat.mod_lt _ (by decide)⟩

/-- Exponent all ones and a non-zero mantissa. -/
def isNaN (f : Float32) : Bool := decide (2139095040 < f.bits % 2147483648)

/-- Positive or negative zero. -/
def isZero (f : Float32) : Bool := decide (f.bits % 2147483648 = 0)

/-- The C++ comparison `a == b` on floats. -/
def eq (a b : Float32) : Bool :=
  !a.isNaN && !b.isNaN && (decide (a.bits = b.bits) || (a.isZero && b.isZero))

/-- The C++ comparison `a != b` on floats. -/
def ne (a b : Float32) : Bool := !(eq a b)

/-- The byte of the pattern at position `k`, position 0 the least significant. -/
def byte (f : Float32) (k : Nat) : Byte :=
  ⟨f.bits / 256 ^ k % 256, Nat.mod_lt _ (by decide)⟩

/-- The float whose pattern has `b0` as least significant byte. -/
def ofBytes (b0 b1 b2 b3 : Byte) : Float32 :=
  ⟨b0.val + 256 * b1.val + 65536 * b2.val + 16777216 * b3.val, by omega⟩

end Float32

/-- The literal `0.f`. -/
def f0 : Float32 := ⟨0, by decide⟩
/-- The literal `0.125f`. -/
def f0_125 : Float32 := ⟨0x3E000000, by decide⟩
/-- The literal `0.2f`. -/
def f0_2 : Float32 := ⟨0x3E4CCCCD, by decide⟩
/-- The literal `.5f`. -/
def f0_5 : Float32 := ⟨0x3F000000, by decide⟩
/-- The literal `.75f`. -/
def f0_75 : Float32 := ⟨0x3F400000, by decide⟩
/-- The literal `1.f`. -/
def f1 : Float32 := ⟨0x3F800000, by decide⟩
/-- The literal `32.f`. -/
def f32 : Float32 := ⟨0x42000000, by decide⟩

/-- The floating-point operations of the C++ target that the embedding leaves
uninterpreted. -/
structure FloatEnv where
  /-- The cast `( float ) value` of a `double`. -/
  toFloat : Float64 → Float32
  /-- The implicit promotion of a `float` to `double`. -/
  toDouble : Float32 → Float64
  /-- The product of two floats. -/
  mul : Float32 → Float32 → Float32
  /-- The cast `( int ) x` of a float. -/
  toInt : Float32 → Int

/-! ## Byte order, memory images and `SWAP_32` -/

/-- The build-time constant `BYTEORDER`. -/
inductive ByteOrder where
  | kLittleEndian
  | kBigEndian
  deriving DecidableEq, Repr

/-- The four bytes a float occupies in memory, lowest address first. -/
def memoryBytes (bo : ByteOrder) (f : Float32) : List Byte :=
  match bo with
  | .kLittleEndian => [f.byte 0, f.byte 1, f.byte 2, f.byte 3]
  | .kBigEndian => [f.byte 3, f.byte 2, f.byte 1, f.byte 0]

/-- The float held by four bytes of memory, lowest address first. -/
def ofMemoryBytes (bo : ByteOrder) (p0 p1 p2 p3 : Byte) : Float32 :=
  match bo with
  | .kLittleEndian => Float32.ofBytes p0 p1 p2 p3
  | .kBigEndian => Float32.ofBytes p3 p2 p1 p0

/-- The SDK macro `SWAP_32( l )`: exchanges `p[0]` with `p[3]` and `p[1]` with
`p[2]` in the memory of `l`. -/
def SWAP_32 (bo : ByteOrder) (l : Float32) : Float32 :=
  match memoryBytes bo l with
  | [p0, p1, p2, p3] => ofMemoryBytes bo p3 p2 p1 p0
  | _ => l

/-- The lines between `#if BYTEORDER == kBigEndian` and `#endif`, for one
variable. -/
def swapIfBigEndian (bo : ByteOrder) (l : Float32) : Float32 :=
  if bo = ByteOrder.kBigEndian then SWAP_32 bo l else l

/-! ## The parameter ids of `paramids.h` -/

/-- The enumerators of `paramids.h` that `vst.cpp` uses.  Their values are not
part of `vst.cpp`. -/
structure ParamIds where
  kDelayTimeId : Nat
  kDelayHostSyncId : Nat
  kDelayFeedbackId : Nat
  kDelayMixId : Nat
  kBitResolutionId : Nat
  kBitResolutionChainId : Nat
  kLFOBitResolutionId : Nat
  kLFOBitResolutionDepthId : Nat
  kDecimatorId : Nat
  kDecimatorChainId : Nat
  kLFODecimatorId : Nat
  kFilterChainId : Nat
  kFilterCutoffId : Nat
  kFilterResonanceId : Nat
  kLFOFilterId : Nat
  kLFOFilterDepthId : Nat
  kVuPPMId : Nat
  deriving DecidableEq, Repr

/-- The sixteen case labels of the switch in `FogPad::process`, in source
order. -/
def ParamIds.known (ids : ParamIds) : List Nat :=
  [ids.kDelayTimeId, ids.kDelayHostSyncId, ids.kDelayFeedbackId, ids.kDelayMixId,
   ids.kBitResolutionId, ids.kBitResolutionChainId, ids.kLFOBitResolutionId,
   ids.kLFOBitResolutionDepthId, ids.kDecimatorId, ids.kDecimatorChainId,
   ids.kLFODecimatorId, ids.kFilterChainId, ids.kFilterCutoffId,
   ids.kFilterResonanceId, ids.kLFOFilterId, ids.kLFOFilterDepthId]

/-- The case labels are pairwise different, as C++ requires of the labels of
one switch. -/
@[reducible] def ParamIds.Distinct (ids : ParamIds) : Prop := ids.known.Nodup

/-- An assignment of consecutive values to the enumerators. -/
def consecutiveIds : ParamIds :=
  ⟨0, 1, 2, 3, 4, 5, 6, 7, 8, 9, 10, 11, 12, 13, 14, 15, 16⟩

/-! ## The parameter model -/

/-- The sixteen model members of `FogPad`, in declaration order of the
constructor's initialiser list. -/
structure ParameterModel where
  fDelayTime : Float32
  fDelayHostSync : Float32
  fDelayFeedback : Float32
  fDelayMix : Float32
  fBitResolution : Float32
  fBitResolutionChain : Float32
  fLFOBitResolution : Float32
  fLFOBitResolutionDepth : Float32
  fDecimator : Float32
  fLFODecimator : Float32
  fDecimatorChain : Float32
  fFilterChain : Float32
  fFilterCutoff : Float32
  fFilterResonance : Float32
  fLFOFilter : Float32
  fLFOFilterDepth : Float32
  deriving DecidableEq, Repr

/-! ## Host automation queues (`IParamValueQueue`, `IParameterChanges`) -/

/-- One automation point: `sampleOffset` and `value`. -/
structure Point where
  sampleOffset : Int
  value : Float64
  deriving DecidableEq, Repr

/-- A host queue of points for one parameter. -/
structure ParamValueQueue where
  parameterId : Nat
  points : List Point
  deriving DecidableEq, Repr

namespace ParamValueQueue

/-- The method `getParameterId ()`. -/
def getParameterId (q : ParamValueQueue) : Nat := q.parameterId

/-- The method `getPointCount ()`. -/
def getPointCount (q : ParamValueQueue) : Int := q.points.length

/-- The method `getPoint (index, sampleOffset, value)`: `some` of the point
stands for `kResultTrue` with both out-parameters written, `none` for
`kResultFalse`; the lookup fails for an index outside `0 .. count - 1`. -/
def getPoint (q : ParamValueQueue) (index : Int) : Option Point :=
  if index < 0 then none else q.points.get? index.toNat

end ParamValueQueue

/-! ## The signal chain as the adapter sees it -/

namespace Calc

/-- Modelled from the spec: `Calc::toBool` of `calc.h`, which is not part of
`vst.cpp`; a flag is true for values `≥ 0.5`.  On patterns: sign bit clear,
at least the pattern of `0.5f`, at most the pattern of `+∞`. -/
def toBool (value : Float32) : Bool :=
  decide (1056964608 ≤ value.bits) && decide (value.bits ≤ 2139095040)

end Calc

/-- The `ReverbProcess` instance as far as `vst.cpp` touches it: the channel
amount passed to its constructor and, for every member or setter that
`syncModel` writes, the value last written (`none`: never written, the chain
still has its own default). -/
structure ReverbProcess where
  amountOfChannels : Int
  syncDelayToHost : Option Bool
  setDelayTime : Option Float32
  setDelayFeedback : Option Float32
  setDelayMix : Option Float32
  bitCrusherPostMix : Option Bool
  decimatorPostMix : Option Bool
  filterPostMix : Option Bool
  bitCrusher_setAmount : Option Float32
  bitCrusher_setLFO : Option (Float32 × Float32)
  decimator_setBits : Option Int
  decimator_setRate : Option Float32
  filter_updateProperties : Option (Float32 × Float32 × Float32 × Float32)
  deriving DecidableEq, Repr

/-- The expression `new ReverbProcess( amountOfChannels )`. -/
def ReverbProcess.new (amountOfChannels : Int) : ReverbProcess :=
  { amountOfChannels := amountOfChannels
    syncDelayToHost := none
    setDelayTime := none
    setDelayFeedback := none
    setDelayMix := none
    bitCrusherPostMix := none
    decimatorPostMix := none
    filterPostMix := none
    bitCrusher_setAmount := none
    bitCrusher_setLFO := none
    decimator_setBits := none
    decimator_setRate := none
    filter_updateProperties := none }

/-- A call from the adapter into the signal chain. -/
inductive Effect where
  /-- One run of `FogPad::syncModel`, with the model it pushed. -/
  | syncModel (m : ParameterModel)
  /-- One call `reverbProcess->process<T>( in, out, numInChannels,
  numOutChannels, numSamples, sampleFramesSize )`; `isDouble` tells `T`. -/
  | process (isDouble : Bool) (numInChannels numOutChannels numSamples : Int)
      (sampleFramesSize : Int)
  deriving DecidableEq, Repr

/-- Is the effect a run of `syncModel`? -/
def Effect.isSync : Effect → Bool
  | .syncModel _ => true
  | .process _ _ _ _ _ => false

/-- Is the effect a call of the chain's `process`? -/
def Effect.isProcess : Effect → Bool
  | .syncModel _ => false
  | .process _ _ _ _ _ => true

/-! ## Buses -/

/-- A speaker arrangement: a set of speakers as a 64-bit mask. -/
abbrev SpeakerArrangement := Nat

namespace SpeakerArr

/-- The arrangement of the speakers L and R. -/
def kStereo : SpeakerArrangement := 3
/-- The arrangement of the single speaker M. -/
def kMono : SpeakerArrangement := 524288

/-- The loop of the SDK function `getChannelCount`: counts the set bits while
shifting `arr` right; `fuel` bounds the number of iterations. -/
def getChannelCountLoop : Nat → SpeakerArrangement → Int
  | 0, _ => 0
  | fuel + 1, arr =>
    if arr = 0 then 0
    else (if arr % 2 = 1 then 1 else 0) + getChannelCountLoop fuel (arr / 2)

/-- The SDK function `getChannelCount`; a 64-bit mask is exhausted after 64
shifts. -/
def getChannelCount (arr : SpeakerArrangement) : Int := getChannelCountLoop 64 arr

end SpeakerArr

/-- An audio bus of the component: its name and arrangement. -/
structure AudioBus where
  name : String
  arr : SpeakerArrangement
  deriving DecidableEq, Repr

/-- The method `getArrangement ()`. -/
def AudioBus.getArrangement (bus : AudioBus) : SpeakerArrangement := bus.arr

/-- An event bus of the component: its name and channel count. -/
structure EventBus where
  name : String
  channels : Int
  deriving DecidableEq, Repr

/-! ## The plugin object -/

/-- The SDK record `ProcessSetup`. -/
structure ProcessSetup where
  processMode : Int
  symbolicSampleSize : Int
  maxSamplesPerBlock : Int
  sampleRate : Float64
  deriving DecidableEq, Repr

/-- The members of `FogPad` (with those of its base class that `vst.cpp`
relies on) and the ghost `trace` of calls into the signal chain. -/
structure FogPad where
  model : ParameterModel
  reverbProcess : ReverbProcess
  outputGainOld : Float32
  currentProcessMode : Int
  processSetup : ProcessSetup
  audioInputs : List AudioBus
  audioOutputs : List AudioBus
  eventInputs : List EventBus
  trace : List Effect
  deriving DecidableEq, Repr

namespace FogPad

/-- The constructor `FogPad::FogPad ()`; `processSetup` is as the base class
constructor leaves it. -/
def new : FogPad :=
  { model :=
      { fDelayTime := f0_125
        fDelayHostSync := f1
        fDelayFeedback := f0_2
        fDelayMix := f0_5
        fBitResolution := f1
        fBitResolutionChain := f1
        fLFOBitResolution := f0
        fLFOBitResolutionDepth := f0_75
        fDecimator := f1
        fLFODecimator := f0
        fDecimatorChain := f0
        fFilterChain := f1
        fFilterCutoff := f0_5
        fFilterResonance := f1
        fLFOFilter := f0
        fLFOFilterDepth := f0_5 }
    reverbProcess := ReverbProcess.new 2
    outputGainOld := f0
    currentProcessMode := -1
    processSetup :=
      { processMode := 0
        symbolicSampleSize := kSample32
        maxSamplesPerBlock := 1024
        sampleRate := ⟨0x40E5888000000000, by decide⟩ }
    audioInputs := []
    audioOutputs := []
    eventInputs := []
    trace := [] }

/-- The method `FogPad::syncModel`. -/
def syncModel (fp : FloatEnv) (self : FogPad) : FogPad :=
  let m := self.model
  let rp := self.reverbProcess
  let rp := { rp with syncDelayToHost := some (Calc.toBool m.fDelayHostSync) }
  let rp := { rp with setDelayTime := some m.fDelayTime }
  let rp := { rp with setDelayFeedback := some m.fDelayFeedback }
  let rp := { rp with setDelayMix := some m.fDelayMix }
  let rp := { rp with bitCrusherPostMix := some (Calc.toBool m.fBitResolutionChain) }
  let rp := { rp with decimatorPostMix := some (Calc.toBool m.fDecimatorChain) }
  let rp := { rp with filterPostMix := some (Calc.toBool m.fFilterChain) }
  let rp := { rp with bitCrusher_setAmount := some m.fBitResolution }
  let rp := { rp with bitCrusher_setLFO := some (m.fLFOBitResolution, m.fLFOBitResolutionDepth) }
  let rp := { rp with decimator_setBits := some (fp.toInt (fp.mul m.fDecimator f32)) }
  let rp := { rp with decimator_setRate := some m.fLFODecimator }
  let props := (m.fFilterCutoff, m.fFilterResonance, m.fLFOFilter, m.fLFOFilterDepth)
  let rp := { rp with filter_updateProperties := some props }
  { self with reverbProcess := rp, trace := self.trace ++ [Effect.syncModel m] }

/-- The switch over `paramQueue->getParameterId ()` in `FogPad::process`:
every case reads the point at index `numPoints - 1` and, when the lookup
answers `kResultTrue`, stores its value in the member of the case. -/
def process_switch (ids : ParamIds) (fp : FloatEnv) (m : ParameterModel)
    (paramQueue : ParamValueQueue) : ParameterModel :=
  let numPoints := paramQueue.getPointCount
  if paramQueue.getParameterId = ids.kDelayTimeId then
    match paramQueue.getPoint (numPoints - 1) with
    | some p => { m with fDelayTime := fp.toFloat p.value }
    | none => m
  else if paramQueue.getParameterId = ids.kDelayHostSyncId then
    match paramQueue.getPoint (numPoints - 1) with
    | some p => { m with fDelayHostSync := fp.toFloat p.value }
    | none => m
  else if paramQueue.getParameterId = ids.kDelayFeedbackId then
    match paramQueue.getPoint (numPoints - 1) with
    | some p => { m with fDelayFeedback := fp.toFloat p.value }
    | none => m
  else if paramQueue.getParameterId = ids.kDelayMixId then
    match paramQueue.getPoint (numPoints - 1) with
    | some p => { m with fDelayMix := fp.toFloat p.value }
    | none => m
  else if paramQueue.getParameterId = ids.kBitResolutionId then
    match paramQueue.getPoint (numPoints - 1) with
    | some p => { m with fBitResolution := fp.toFloat p.value }
    | none => m
  else if paramQueue.getParameterId = ids.kBitResolutionChainId then
    match paramQueue.getPoint (numPoints - 1) with
    | some p => { m with fBitResolutionChain := fp.toFloat p.value }
    | none => m
  else if paramQueue.getParameterId = ids.kLFOBitResolutionId then
    match paramQueue.getPoint (numPoints - 1) with
    | some p => { m with fLFOBitResolution := fp.toFloat p.value }
    | none => m
  else if paramQueue.getParameterId = ids.kLFOBitResolutionDepthId then
    match paramQueue.getPoint (numPoints - 1) with
    | some p => { m with fLFOBitResolutionDepth := fp.toFloat p.value }
    | none => m
  else if paramQueue.getParameterId = ids.kDecimatorId then
    match paramQueue.getPoint (numPoints - 1) with
    | some p => { m with fDecimator := fp.toFloat p.value }
    | none => m
  else if paramQueue.getParameterId = ids.kDecimatorChainId then
    match paramQueue.getPoint (numPoints - 1) with
    | some p => { m with fDecimatorChain := fp.toFloat p.value }
    | none => m
  else if paramQueue.getParameterId = ids.kLFODecimatorId then
    match paramQueue.getPoint (numPoints - 1) with
    | some p => { m with fLFODecimator := fp.toFloat p.value }
    | none => m
  else if paramQueue.getParameterId = ids.kFilterChainId then
    match paramQueue.getPoint (numPoints - 1) with
    | some p => { m with fFilterChain := fp.toFloat p.value }
    | none => m
  else if paramQueue.getParameterId = ids.kFilterCutoffId then
    match paramQueue.getPoint (numPoints - 1) with
    | some p => { m with fFilterCutoff := fp.toFloat p.value }
    | none => m
  else if paramQueue.getParameterId = ids.kFilterResonanceId then
    match paramQueue.getPoint (numPoints - 1) with
    | some p => { m with fFilterResonance := fp.toFloat p.value }
    | none => m
  else if paramQueue.getParameterId = ids.kLFOFilterId then
    match paramQueue.getPoint (numPoints - 1) with
    | some p => { m with fLFOFilter := fp.toFloat p.value }
    | none => m
  else if paramQueue.getParameterId = ids.kLFOFilterDepthId then
    match paramQueue.getPoint (numPoints - 1) with
    | some p => { m with fLFOFilterDepth := fp.toFloat p.value }
    | none => m
  else m

/-- The body of the loop over the changed parameters in `FogPad::process`: a
null queue is skipped; otherwise the switch runs, then `syncModel ()`. -/
def process_paramQueue (ids : ParamIds) (fp : FloatEnv) (self : FogPad)
    (paramQueue : Option ParamValueQueue) : FogPad :=
  match paramQueue with
  | none => self
  | some q => syncModel fp { self with model := process_switch ids fp self.model q }

/-- Step 1 of `FogPad::process`: the loop over `paramChanges`; `none` is a
null `data.inputParameterChanges`. -/
def process_readParameterChanges (ids : ParamIds) (fp : FloatEnv) (self : FogPad)
    (paramChanges : Option (List (Option ParamValueQueue))) : FogPad :=
  match paramChanges with
  | none => self
  | some queues => queues.foldl (process_paramQueue ids fp) self

end FogPad

/-! ### Block processing -/

/-- The SDK record `AudioBusBuffers`, without the sample buffers. -/
structure AudioBusBuffers where
  numChannels : Int
  silenceFlags : Nat
  deriving DecidableEq, Repr

/-- One point added to the host's output parameter changes: the id given to
`addParameterData` and the arguments of `addPoint`. -/
structure OutputPoint where
  paramId : Nat
  sampleOffset : Int
  value : Float64
  deriving DecidableEq, Repr

/-- The host's output `IParameterChanges`: whether `addParameterData` answers
with a queue (rather than null), and the points added so far. -/
structure OutputParameterChanges where
  yieldsQueue : Bool
  points : List OutputPoint
  deriving DecidableEq, Repr

/-- The SDK record `ProcessData`, without the sample buffers.  The bus counts
`numInputs` and `numOutputs` are the lengths of `inputs` and `outputs`. -/
structure ProcessData where
  inputParameterChanges : Option (List (Option ParamValueQueue))
  inputs : List AudioBusBuffers
  outputs : List AudioBusBuffers
  numSamples : Int
  symbolicSampleSize : Int
  outputParameterChanges : Option OutputParameterChanges
  deriving DecidableEq, Repr

/-- The member `numInputs`: the number of input buses. -/
def ProcessData.numInputs (data : ProcessData) : Int := data.inputs.length

/-- The member `numOutputs`: the number of output buses. -/
def ProcessData.numOutputs (data : ProcessData) : Int := data.outputs.length

/-- The SDK helper `getSampleFramesSizeInBytes`, a `uint32`. -/
def getSampleFramesSizeInBytes (processSetup : ProcessSetup) (numSamples : Int) : Int :=
  if processSetup.symbolicSampleSize = kSample32 then (4 * numSamples) % 4294967296
  else (8 * numSamples) % 4294967296

namespace FogPad

/-- Step 4 of `FogPad::process`: the write of the output parameter changes. -/
def process_writeOutput (ids : ParamIds) (fp : FloatEnv) (isDoublePrecision : Bool)
    (outputGainOld outputGain : Float32)
    (outParamChanges : Option OutputParameterChanges) : Option OutputParameterChanges :=
  match outParamChanges with
  | none => none
  | some changes =>
    if !isDoublePrecision && Float32.ne outputGainOld outputGain then
      if changes.yieldsQueue then
        some { changes with
          points := changes.points ++ [⟨ids.kVuPPMId, 0, fp.toDouble outputGain⟩] }
      else some changes
    else some changes

/-- The method `FogPad::process`.  `limiterGR` is what
`reverbProcess->limiter->getLinearGR ()` answers after the chain has
processed the block. -/
def process (ids : ParamIds) (fp : FloatEnv) (self : FogPad) (data : ProcessData)
    (limiterGR : Float32) : Int × FogPad × ProcessData :=
  let self := process_readParameterChanges ids fp self data.inputParameterChanges
  if data.numInputs = 0 ∨ data.numOutputs = 0 then (kResultOk, self, data)
  else
    match data.inputs, data.outputs with
    | in0 :: _, out0 :: outputsRest =>
      let numInChannels := in0.numChannels
      let numOutChannels := out0.numChannels
      let sampleFramesSize := getSampleFramesSizeInBytes self.processSetup data.numSamples
      let isDoublePrecision := decide (data.symbolicSampleSize = kSample64)
      let call := Effect.process isDoublePrecision numInChannels numOutChannels
        data.numSamples sampleFramesSize
      let self := { self with trace := self.trace ++ [call] }
      let outputs := { out0 with silenceFlags := 0 } :: outputsRest
      let outputGain := limiterGR
      let outParamChanges := process_writeOutput ids fp isDoublePrecision
        self.outputGainOld outputGain data.outputParameterChanges
      let self := { self with outputGainOld := outputGain }
      (kResultOk, self,
        { data with outputs := outputs, outputParameterChanges := outParamChanges })
    | _, _ => (kResultOk, self, data)

end FogPad

/-! ### State streams -/

/-- Modelled from the spec: the host stream `IBStream`, which is not part of
`vst.cpp`; a sequence of bytes read in order from a position.  What a read
answers when bytes are missing is the host's choice: `readFloat` is the read
of a stream that answers a failure then, `read` that of a stream of any
host. -/
structure IBStream where
  bytes : List Byte
  cursor : Nat
  deriving DecidableEq, Repr

namespace IBStream

/-- The call `state->read( &x, sizeof ( float ))` on a float variable `x`,
on a stream that answers a failure when fewer than four bytes are left:
`none` stands for an answer other than `kResultOk`; otherwise `x` holds the
next four bytes as its memory. -/
def readFloat (state : IBStream) (bo : ByteOrder) : Option (Float32 × IBStream) :=
  match state.bytes.drop state.cursor with
  | p0 :: p1 :: p2 :: p3 :: _ =>
    some (ofMemoryBytes bo p0 p1 p2 p3, { state with cursor := state.cursor + 4 })
  | _ => none

/-- The call `state->write( &x, sizeof( float ))`: the memory of `x` is
appended to the stream. -/
def writeFloat (state : IBStream) (bo : ByteOrder) (x : Float32) : IBStream :=
  { state with bytes := state.bytes ++ memoryBytes bo x }

/-- The host call `state->read( buffer, numBytes )`, made without
`numBytesRead`, on a stream of any host: result code, the bytes copied to the
buffer, the stream afterwards.  With `numBytes` bytes left the stream copies
them and answers `kResultOk`.  With fewer left it copies what is left and
answers `shortReadResult`: a code other than `kResultOk` for a stream that
counts a short read as a failure, `kResultOk` for a stream that reports a
short read through `numBytesRead` only (as the SDK's memory stream does). -/
def read (state : IBStream) (shortReadResult : Int) (numBytes : Nat) :
    Int × List Byte × IBStream :=
  let left := state.bytes.drop state.cursor
  if numBytes ≤ left.length then
    (kResultOk, left.take numBytes, { state with cursor := state.cursor + numBytes })
  else (shortReadResult, left, { state with cursor := state.bytes.length })

/-- The call `state->read( &x, sizeof ( float ))` on a float variable that
holds `x`, on a stream of any host: result code, the variable afterwards (the
bytes copied lie over the start of its memory, the rest of its memory is as
before), the stream afterwards. -/
def readInto (state : IBStream) (shortReadResult : Int) (bo : ByteOrder) (x : Float32) :
    Int × Float32 × IBStream :=
  match state.read shortReadResult 4 with
  | (result, copied, state) =>
    match copied ++ (memoryBytes bo x).drop copied.length with
    | [p0, p1, p2, p3] => (result, ofMemoryBytes bo p0 p1 p2 p3, state)
    | _ => (result, x, state)

/-- The statement `if ( state->read( &x, sizeof ( float )) != kResultOk )
return kResultFalse;` on a stream of any host, for a variable initialised to
`x`: `none` stands for the return, otherwise the variable and the stream are
as the read left them. -/
def readChecked (state : IBStream) (shortReadResult : Int) (bo : ByteOrder) (x : Float32) :
    Option (Float32 × IBStream) :=
  match state.readInto shortReadResult bo x with
  | (result, x, state) => if result ≠ kResultOk then none else some (x, state)

end IBStream

namespace FogPad

/-- The method `FogPad::setState` on a stream that answers a failure when
bytes are missing (`setState_anyStream` is the method on a stream of any
host), up to its read-only look at the stream attributes.  Every read that
does not answer `kResultOk` returns `kResultFalse` at once. -/
def setState (bo : ByteOrder) (fp : FloatEnv) (self : FogPad) (state : IBStream) :
    Int × FogPad :=
  match state.readFloat bo with
  | none => (kResultFalse, self)
  | some (savedDelayTime, state) =>
  match state.readFloat bo with
  | none => (kResultFalse, self)
  | some (savedDelayHostSync, state) =>
  match state.readFloat bo with
  | none => (kResultFalse, self)
  | some (savedDelayFeedback, state) =>
  match state.readFloat bo with
  | none => (kResultFalse, self)
  | some (savedDelayMix, state) =>
  match state.readFloat bo with
  | none => (kResultFalse, self)
  | some (savedBitResolution, state) =>
  match state.readFloat bo with
  | none => (kResultFalse, self)
  | some (savedBitResolutionChain, state) =>
  match state.readFloat bo with
  | none => (kResultFalse, self)
  | some (savedLFOBitResolution, state) =>
  match state.readFloat bo with
  | none => (kResultFalse, self)
  | some (savedLFOBitResolutionDepth, state) =>
  match state.readFloat bo with
  | none => (kResultFalse, self)
  | some (savedDecimator, state) =>
  match state.readFloat bo with
  | none => (kResultFalse, self)
  | some (savedDecimatorChain, state) =>
  match state.readFloat bo with
  | none => (kResultFalse, self)
  | some (savedLFODecimator, state) =>
  match state.readFloat bo with
  | none => (kResultFalse, self)
  | some (savedFilterChain, state) =>
  match state.readFloat bo with
  | none => (kResultFalse, self)
  | some (savedFilterCutoff, state) =>
  match state.readFloat bo with
  | none => (kResultFalse, self)
  | some (savedFilterResonance, state) =>
  match state.readFloat bo with
  | none => (kResultFalse, self)
  | some (savedLFOFilter, state) =>
  match state.readFloat bo with
  | none => (kResultFalse, self)
  | some (savedLFOFilterDepth, _) =>
  let savedDelayTime := swapIfBigEndian bo savedDelayTime
  let savedDelayHostSync := swapIfBigEndian bo savedDelayHostSync
  let savedDelayFeedback := swapIfBigEndian bo savedDelayFeedback
  let savedDelayMix := swapIfBigEndian bo savedDelayMix
  let savedBitResolution := swapIfBigEndian bo savedBitResolution
  let savedBitResolutionChain := swapIfBigEndian bo savedBitResolutionChain
  let savedLFOBitResolution := swapIfBigEndian bo savedLFOBitResolution
  let savedLFOBitResolutionDepth := swapIfBigEndian bo savedLFOBitResolutionDepth
  let savedDecimator := swapIfBigEndian bo savedDecimator
  let savedDecimatorChain := swapIfBigEndian bo savedDecimatorChain
  let savedLFODecimator := swapIfBigEndian bo savedLFODecimator
  let savedFilterChain := swapIfBigEndian bo savedFilterChain
  let savedFilterCutoff := swapIfBigEndian bo savedFilterCutoff
  let savedFilterResonance := swapIfBigEndian bo savedFilterResonance
  let savedLFOFilter := swapIfBigEndian bo savedLFOFilter
  let savedLFOFilterDepth := swapIfBigEndian bo savedLFOFilterDepth
  let model : ParameterModel :=
    { fDelayTime := savedDelayTime
      fDelayHostSync := savedDelayHostSync
      fDelayFeedback := savedDelayFeedback
      fDelayMix := savedDelayMix
      fBitResolution := savedBitResolution
      fBitResolutionChain := savedBitResolutionChain
      fLFOBitResolution := savedLFOBitResolution
      fLFOBitResolutionDepth := savedLFOBitResolutionDepth
      fDecimator := savedDecimator
      fDecimatorChain := savedDecimatorChain
      fLFODecimator := savedLFODecimator
      fFilterChain := savedFilterChain
      fFilterCutoff := savedFilterCutoff
      fFilterResonance := savedFilterResonance
      fLFOFilter := savedLFOFilter
      fLFOFilterDepth := savedLFOFilterDepth }
  let self := { self with model := model }
  let self := syncModel fp self
  (kResultOk, self)

/-- The method `FogPad::setState` on a stream of any host (see
`IBStream.read`), up to its read-only look at the stream attributes: every
local starts from its initialiser (the last argument of `readChecked`:
`0.f` or `1.f`), every read is tested on its result code alone, and the
first result other than `kResultOk` returns `kResultFalse`. -/
def setState_anyStream (shortReadResult : Int) (bo : ByteOrder) (fp : FloatEnv)
    (self : FogPad) (state : IBStream) : Int × FogPad :=
  match state.readChecked shortReadResult bo f0 with
  | none => (kResultFalse, self)
  | some (savedDelayTime, state) =>
  match state.readChecked shortReadResult bo f0 with
  | none => (kResultFalse, self)
  | some (savedDelayHostSync, state) =>
  match state.readChecked shortReadResult bo f0 with
  | none => (kResultFalse, self)
  | some (savedDelayFeedback, state) =>
  match state.readChecked shortReadResult bo f0 with
  | none => (kResultFalse, self)
  | some (savedDelayMix, state) =>
  match state.readChecked shortReadResult bo f0 with
  | none => (kResultFalse, self)
  | some (savedBitResolution, state) =>
  match state.readChecked shortReadResult bo f0 with
  | none => (kResultFalse, self)
  | some (savedBitResolutionChain, state) =>
  match state.readChecked shortReadResult bo f0 with
  | none => (kResultFalse, self)
  | some (savedLFOBitResolution, state) =>
  match state.readChecked shortReadResult bo f0 with
  | none => (kResultFalse, self)
  | some (savedLFOBitResolutionDepth, state) =>
  match state.readChecked shortReadResult bo f0 with
  | none => (kResultFalse, self)
  | some (savedDecimator, state) =>
  match state.readChecked shortReadResult bo f0 with
  | none => (kResultFalse, self)
  | some (savedDecimatorChain, state) =>
  match state.readChecked shortReadResult bo f1 with
  | none => (kResultFalse, self)
  | some (savedLFODecimator, state) =>
  match state.readChecked shortReadResult bo f0 with
  | none => (kResultFalse, self)
  | some (savedFilterChain, state) =>
  match state.readChecked shortReadResult bo f1 with
  | none => (kResultFalse, self)
  | some (savedFilterCutoff, state) =>
  match state.readChecked shortReadResult bo f1 with
  | none => (kResultFalse, self)
  | some (savedFilterResonance, state) =>
  match state.readChecked shortReadResult bo f1 with
  | none => (kResultFalse, self)
  | some (savedLFOFilter, state) =>
  match state.readChecked shortReadResult bo f1 with
  | none => (kResultFalse, self)
  | some (savedLFOFilterDepth, _) =>
  let savedDelayTime := swapIfBigEndian bo savedDelayTime
  let savedDelayHostSync := swapIfBigEndian bo savedDelayHostSync
  let savedDelayFeedback := swapIfBigEndian bo savedDelayFeedback
  let savedDelayMix := swapIfBigEndian bo savedDelayMix
  let savedBitResolution := swapIfBigEndian bo savedBitResolution
  let savedBitResolutionChain := swapIfBigEndian bo savedBitResolutionChain
  let savedLFOBitResolution := swapIfBigEndian bo savedLFOBitResolution
  let savedLFOBitResolutionDepth := swapIfBigEndian bo savedLFOBitResolutionDepth
  let savedDecimator := swapIfBigEndian bo savedDecimator
  let savedDecimatorChain := swapIfBigEndian bo savedDecimatorChain
  let savedLFODecimator := swapIfBigEndian bo savedLFODecimator
  let savedFilterChain := swapIfBigEndian bo savedFilterChain
  let savedFilterCutoff := swapIfBigEndian bo savedFilterCutoff
  let savedFilterResonance := swapIfBigEndian bo savedFilterResonance
  let savedLFOFilter := swapIfBigEndian bo savedLFOFilter
  let savedLFOFilterDepth := swapIfBigEndian bo savedLFOFilterDepth
  let model : ParameterModel :=
    { fDelayTime := savedDelayTime
      fDelayHostSync := savedDelayHostSync
      fDelayFeedback := savedDelayFeedback
      fDelayMix := savedDelayMix
      fBitResolution := savedBitResolution
      fBitResolutionChain := savedBitResolutionChain
      fLFOBitResolution := savedLFOBitResolution
      fLFOBitResolutionDepth := savedLFOBitResolutionDepth
      fDecimator := savedDecimator
      fDecimatorChain := savedDecimatorChain
      fLFODecimator := savedLFODecimator
      fFilterChain := savedFilterChain
      fFilterCutoff := savedFilterCutoff
      fFilterResonance := savedFilterResonance
      fLFOFilter := savedLFOFilter
      fLFOFilterDepth := savedLFOFilterDepth }
  let self := { self with model := model }
  let self := syncModel fp self
  (kResultOk, self)

/-- The method `FogPad::getState`. -/
def getState (bo : ByteOrder) (self : FogPad) (state : IBStream) : Int × IBStream :=
  let toSaveDelayTime := self.model.fDelayTime
  let toSaveDelayHostSync := self.model.fDelayHostSync
  let toSaveDelayFeedback := self.model.fDelayFeedback
  let toSaveDelayMix := self.model.fDelayMix
  let toSaveBitResolution := self.model.fBitResolution
  let toSaveBitResolutionChain := self.model.fBitResolutionChain
  let toSaveLFOBitResolution := self.model.fLFOBitResolution
  let toSaveLFOBitResolutionDepth := self.model.fLFOBitResolutionDepth
  let toSaveDecimator := self.model.fDecimator
  let toSaveDecimatorChain := self.model.fDecimatorChain
  let toSaveLFODecimator := self.model.fLFODecimator
  let toSaveFilterChain := self.model.fFilterChain
  let toSaveFilterCutoff := self.model.fFilterCutoff
  let toSaveFilterResonance := self.model.fFilterResonance
  let toSaveLFOFilter := self.model.fLFOFilter
  let toSaveLFOFilterDepth := self.model.fLFOFilterDepth
  let toSaveDelayTime := swapIfBigEndian bo toSaveDelayTime
  let toSaveDelayHostSync := swapIfBigEndian bo toSaveDelayHostSync
  let toSaveDelayFeedback := swapIfBigEndian bo toSaveDelayFeedback
  let toSaveDelayMix := swapIfBigEndian bo toSaveDelayMix
  let toSaveBitResolution := swapIfBigEndian bo toSaveBitResolution
  let toSaveBitResolutionChain := swapIfBigEndian bo toSaveBitResolutionChain
  let toSaveLFOBitResolution := swapIfBigEndian bo toSaveLFOBitResolution
  let toSaveLFOBitResolutionDepth := swapIfBigEndian bo toSaveLFOBitResolutionDepth
  let toSaveDecimator := swapIfBigEndian bo toSaveDecimator
  let toSaveDecimatorChain := swapIfBigEndian bo toSaveDecimatorChain
  let toSaveLFODecimator := swapIfBigEndian bo toSaveLFODecimator
  let toSaveFilterChain := swapIfBigEndian bo toSaveFilterChain
  let toSaveFilterCutoff := swapIfBigEndian bo toSaveFilterCutoff
  let toSaveFilterResonance := swapIfBigEndian bo toSaveFilterResonance
  let toSaveLFOFilter := swapIfBigEndian bo toSaveLFOFilter
  let toSaveLFOFilterDepth := swapIfBigEndian bo toSaveLFOFilterDepth
  let state := state.writeFloat bo toSaveDelayTime
  let state := state.writeFloat bo toSaveDelayHostSync
  let state := state.writeFloat bo toSaveDelayFeedback
  let state := state.writeFloat bo toSaveDelayMix
  let state := state.writeFloat bo toSaveBitResolution
  let state := state.writeFloat bo toSaveBitResolutionChain
  let state := state.writeFloat bo toSaveLFOBitResolution
  let state := state.writeFloat bo toSaveLFOBitResolutionDepth
  let state := state.writeFloat bo toSaveDecimator
  let state := state.writeFloat bo toSaveDecimatorChain
  let state := state.writeFloat bo toSaveLFODecimator
  let state := state.writeFloat bo toSaveFilterChain
  let state := state.writeFloat bo toSaveFilterCutoff
  let state := state.writeFloat bo toSaveFilterResonance
  let state := state.writeFloat bo toSaveLFOFilter
  let state := state.writeFloat bo toSaveLFOFilterDepth
  (kResultOk, state)

/-! ### Buses -/

/-- The base-class method `removeAudioBusses ()`. -/
def removeAudioBusses (self : FogPad) : FogPad :=
  { self with audioInputs := [], audioOutputs := [] }

/-- The base-class method `addAudioInput ( name, arr )`. -/
def addAudioInput (self : FogPad) (name : String) (arr : SpeakerArrangement) : FogPad :=
  { self with audioInputs := self.audioInputs ++ [⟨name, arr⟩] }

/-- The base-class method `addAudioOutput ( name, arr )`. -/
def addAudioOutput (self : FogPad) (name : String) (arr : SpeakerArrangement) : FogPad :=
  { self with audioOutputs := self.audioOutputs ++ [⟨name, arr⟩] }

/-- The base-class method `addEventInput ( name, channels )`. -/
def addEventInput (self : FogPad) (name : String) (channels : Int) : FogPad :=
  { self with eventInputs := self.eventInputs ++ [⟨name, channels⟩] }

/-- The method `FogPad::initialize` (spelt `initialise`, the source's name
being reserved); `parentResult` is the answer of the parent's method. -/
def initialise (self : FogPad) (parentResult : Int) : Int × FogPad :=
  if parentResult ≠ kResultOk then (parentResult, self)
  else
    let self := addAudioInput self "Stereo In" SpeakerArr.kStereo
    let self := addAudioOutput self "Stereo Out" SpeakerArr.kStereo
    let self := addEventInput self "Event In" 1
    (kResultOk, self)

/-- The method `FogPad::setBusArrangements`; `numIns` and `numOuts` are the
lengths of `inputs` and `outputs`.  The result is `none` when
`audioInputs.at( 0 )` is out of range. -/
def setBusArrangements (self : FogPad) (inputs outputs : List SpeakerArrangement) :
    Option (Int × FogPad) :=
  match inputs, outputs with
  | [inputs0], [outputs0] =>
    if SpeakerArr.getChannelCount inputs0 = 1 ∧ SpeakerArr.getChannelCount outputs0 = 1 then
      match self.audioInputs.head? with
      | none => none
      | some bus =>
        if bus.getArrangement ≠ inputs0 then
          let self := removeAudioBusses self
          let self := addAudioInput self "Mono In" inputs0
          let self := addAudioOutput self "Mono Out" inputs0
          some (kResultOk, self)
        else some (kResultOk, self)
    else
      match self.audioInputs.head? with
      | none => none
      | some bus =>
        if SpeakerArr.getChannelCount inputs0 = 2 ∧ SpeakerArr.getChannelCount outputs0 = 2 then
          let self := removeAudioBusses self
          let self := addAudioInput self "Stereo In" inputs0
          let self := addAudioOutput self "Stereo Out" outputs0
          some (kResultTrue, self)
        else if bus.getArrangement ≠ SpeakerArr.kStereo then
          let self := removeAudioBusses self
          let self := addAudioInput self "Stereo In" SpeakerArr.kStereo
          let self := addAudioOutput self "Stereo Out" SpeakerArr.kStereo
          some (kResultFalse, self)
        else some (kResultFalse, self)
  | _, _ => some (kResultFalse, self)


/-! ### Capability, activation, processing setup -/

/-- The method `FogPad::canProcessSampleSize`. -/
def canProcessSampleSize (symbolicSampleSize : Int) : Int :=
  if symbolicSampleSize = kSample32 then kResultTrue
  else if symbolicSampleSize = kSample64 then kResultTrue
  else kResultFalse

/-- The method `FogPad::setActive`; `parentResult` is the answer of the
parent's `setActive`.  The third component is the text handed to
`sendTextMessage`. -/
def setActive (self : FogPad) (state : Bool) (parentResult : Int) : Int × FogPad × String :=
  let text := if state then "FogPad::setActive (true)" else "FogPad::setActive (false)"
  let self := { self with outputGainOld := f0 }
  (parentResult, self, text)

/-- The SDK method `AudioEffect::setupProcessing`: stores the new setup; the
sample size is stored only when `canProcessSampleSize` accepts it. -/
def AudioEffect_setupProcessing (self : FogPad) (newSetup : ProcessSetup) : Int × FogPad :=
  let processSetup := { self.processSetup with
    maxSamplesPerBlock := newSetup.maxSamplesPerBlock
    processMode := newSetup.processMode
    sampleRate := newSetup.sampleRate }
  if canProcessSampleSize newSetup.symbolicSampleSize ≠ kResultTrue then
    (kResultFalse, { self with processSetup := processSetup })
  else
    (kResultOk, { self with processSetup :=
      { processSetup with symbolicSampleSize := newSetup.symbolicSampleSize } })

/-- The method `FogPad::setupProcessing`.  The chain held so far is deleted
and `reverbProcess` points to `new ReverbProcess( 6 )`.  The third component
is the value assigned to the global `VST::SAMPLE_RATE`. -/
def setupProcessing (fp : FloatEnv) (self : FogPad) (newSetup : ProcessSetup) :
    Int × FogPad × Float64 :=
  let self := { self with currentProcessMode := newSetup.processMode }
  let SAMPLE_RATE := newSetup.sampleRate
  let self := { self with reverbProcess := ReverbProcess.new 6 }
  let self := syncModel fp self
  let parent := AudioEffect_setupProcessing self newSetup
  (parent.1, parent.2, SAMPLE_RATE)

end FogPad

/-! ## Derived notions used in the statements -/

/-- The queues of the block's input parameter changes; none when
`data.inputParameterChanges` is null. -/
def ProcessData.paramQueues (data : ProcessData) : List (Option ParamValueQueue) :=
  match data.inputParameterChanges with
  | none => []
  | some queues => queues

/-- The runs of `syncModel` that the loop of `FogPad::process` performs on the
given queues from model `m`: one per non-null queue, each with the model as it
is right after the switch has handled that queue. -/
def syncRuns (ids : ParamIds) (fp : FloatEnv) :
    ParameterModel → List (Option ParamValueQueue) → List Effect
  | _, [] => []
  | m, none :: queues => syncRuns ids fp m queues
  | m, some q :: queues =>
    Effect.syncModel (FogPad.process_switch ids fp m q) ::
      syncRuns ids fp (FogPad.process_switch ids fp m q) queues

/-- The component has one input and one output bus, both with `n` channels. -/
def FogPad.hasTopology (self : FogPad) (n : Int) : Bool :=
  match self.audioInputs, self.audioOutputs with
  | [i], [o] =>
    decide (SpeakerArr.getChannelCount i.arr = n) && decide (SpeakerArr.getChannelCount o.arr = n)
  | _, _ => false

/-- The topology Mono in / Mono out. -/
def FogPad.isMonoMono (self : FogPad) : Bool := self.hasTopology 1

/-- The topology Stereo in / Stereo out. -/
def FogPad.isStereoStereo (self : FogPad) : Bool := self.hasTopology 2

/-! ### Members of the model by name -/

/-- The sixteen members of the model, in the order of the case labels of the
switch in `FogPad::process`. -/
inductive Field where
  | fDelayTime
  | fDelayHostSync
  | fDelayFeedback
  | fDelayMix
  | fBitResolution
  | fBitResolutionChain
  | fLFOBitResolution
  | fLFOBitResolutionDepth
  | fDecimator
  | fDecimatorChain
  | fLFODecimator
  | fFilterChain
  | fFilterCutoff
  | fFilterResonance
  | fLFOFilter
  | fLFOFilterDepth
  deriving DecidableEq, Repr

/-- All members, in the order of the case labels. -/
def Field.all : List Field :=
  [.fDelayTime, .fDelayHostSync, .fDelayFeedback, .fDelayMix, .fBitResolution, .fBitResolutionChain, .fLFOBitResolution, .fLFOBitResolutionDepth, .fDecimator, .fDecimatorChain, .fLFODecimator, .fFilterChain, .fFilterCutoff, .fFilterResonance, .fLFOFilter, .fLFOFilterDepth]

/-- The value of a member. -/
def ParameterModel.get (m : ParameterModel) : Field → Float32
  | .fDelayTime => m.fDelayTime
  | .fDelayHostSync => m.fDelayHostSync
  | .fDelayFeedback => m.fDelayFeedback
  | .fDelayMix => m.fDelayMix
  | .fBitResolution => m.fBitResolution
  | .fBitResolutionChain => m.fBitResolutionChain
  | .fLFOBitResolution => m.fLFOBitResolution
  | .fLFOBitResolutionDepth => m.fLFOBitResolutionDepth
  | .fDecimator => m.fDecimator
  | .fDecimatorChain => m.fDecimatorChain
  | .fLFODecimator => m.fLFODecimator
  | .fFilterChain => m.fFilterChain
  | .fFilterCutoff => m.fFilterCutoff
  | .fFilterResonance => m.fFilterResonance
  | .fLFOFilter => m.fLFOFilter
  | .fLFOFilterDepth => m.fLFOFilterDepth

/-- The model with one member overwritten. -/
def ParameterModel.set (m : ParameterModel) (fld : Field) (v : Float32) : ParameterModel :=
  match fld with
  | .fDelayTime => { m with fDelayTime := v }
  | .fDelayHostSync => { m with fDelayHostSync := v }
  | .fDelayFeedback => { m with fDelayFeedback := v }
  | .fDelayMix => { m with fDelayMix := v }
  | .fBitResolution => { m with fBitResolution := v }
  | .fBitResolutionChain => { m with fBitResolutionChain := v }
  | .fLFOBitResolution => { m with fLFOBitResolution := v }
  | .fLFOBitResolutionDepth => { m with fLFOBitResolutionDepth := v }
  | .fDecimator => { m with fDecimator := v }
  | .fDecimatorChain => { m with fDecimatorChain := v }
  | .fLFODecimator => { m with fLFODecimator := v }
  | .fFilterChain => { m with fFilterChain := v }
  | .fFilterCutoff => { m with fFilterCutoff := v }
  | .fFilterResonance => { m with fFilterResonance := v }
  | .fLFOFilter => { m with fLFOFilter := v }
  | .fLFOFilterDepth => { m with fLFOFilterDepth := v }

/-- The case label under which the switch assigns to a member. -/
def ParamIds.labelOf (ids : ParamIds) : Field → Nat
  | .fDelayTime => ids.kDelayTimeId
  | .fDelayHostSync => ids.kDelayHostSyncId
  | .fDelayFeedback => ids.kDelayFeedbackId
  | .fDelayMix => ids.kDelayMixId
  | .fBitResolution => ids.kBitResolutionId
  | .fBitResolutionChain => ids.kBitResolutionChainId
  | .fLFOBitResolution => ids.kLFOBitResolutionId
  | .fLFOBitResolutionDepth => ids.kLFOBitResolutionDepthId
  | .fDecimator => ids.kDecimatorId
  | .fDecimatorChain => ids.kDecimatorChainId
  | .fLFODecimator => ids.kLFODecimatorId
  | .fFilterChain => ids.kFilterChainId
  | .fFilterCutoff => ids.kFilterCutoffId
  | .fFilterResonance => ids.kFilterResonanceId
  | .fLFOFilter => ids.kLFOFilterId
  | .fLFOFilterDepth => ids.kLFOFilterDepthId

/-- The member that the switch of `FogPad::process` assigns to for a
parameter id: that of the first case label equal to the id, none for an id
without a case. -/
def ParamIds.fieldOf (ids : ParamIds) (id : Nat) : Option Field :=
  if id = ids.kDelayTimeId then some .fDelayTime
  else if id = ids.kDelayHostSyncId then some .fDelayHostSync
  else if id = ids.kDelayFeedbackId then some .fDelayFeedback
  else if id = ids.kDelayMixId then some .fDelayMix
  else if id = ids.kBitResolutionId then some .fBitResolution
  else if id = ids.kBitResolutionChainId then some .fBitResolutionChain
  else if id = ids.kLFOBitResolutionId then some .fLFOBitResolution
  else if id = ids.kLFOBitResolutionDepthId then some .fLFOBitResolutionDepth
  else if id = ids.kDecimatorId then some .fDecimator
  else if id = ids.kDecimatorChainId then some .fDecimatorChain
  else if id = ids.kLFODecimatorId then some .fLFODecimator
  else if id = ids.kFilterChainId then some .fFilterChain
  else if id = ids.kFilterCutoffId then some .fFilterCutoff
  else if id = ids.kFilterResonanceId then some .fFilterResonance
  else if id = ids.kLFOFilterId then some .fLFOFilter
  else if id = ids.kLFOFilterDepthId then some .fLFOFilterDepth
  else none

/-- Does the (possibly null) queue carry the given parameter id? -/
def targets (id : Nat) (q : Option ParamValueQueue) : Bool :=
  match q with
  | some q => decide (q.getParameterId = id)
  | none => false

/-- The effect of one iteration of the parameter loop on the model: the
switch for a queue, nothing for a null queue. -/
def mergeStep (ids : ParamIds) (fp : FloatEnv) (m : ParameterModel)
    (q : Option ParamValueQueue) : ParameterModel :=
  match q with
  | none => m
  | some q => FogPad.process_switch ids fp m q

/-- The effect of the whole parameter loop on the model. -/
def mergeModel (ids : ParamIds) (fp : FloatEnv) (m : ParameterModel)
    (queues : List (Option ParamValueQueue)) : ParameterModel :=
  queues.foldl (mergeStep ids fp) m

/-! ### Sequences of blocks -/

/-- The block has an input bus and an output bus, so `FogPad::process` goes
past its entry guard and hands the block to the chain. -/
def ProcessData.hasBuses (data : ProcessData) : Bool :=
  decide (data.numInputs ≠ 0) && decide (data.numOutputs ≠ 0)

/-- The plugin after `FogPad::process` has been called on the blocks in turn;
each block comes with what the limiter reports for it. -/
def processBlocks (ids : ParamIds) (fp : FloatEnv) (self : FogPad)
    (blocks : List (ProcessData × Float32)) : FogPad :=
  blocks.foldl (fun s b => (FogPad.process ids fp s b.1 b.2).2.1) self

/-- The metering value of the last block with buses, or `cached` when there is
no such block. -/
def lastMeter (cached : Float32) (blocks : List (ProcessData × Float32)) : Float32 :=
  blocks.foldl (fun g b => if b.1.hasBuses then b.2 else g) cached

/-! ### The unit interval -/

/-- The four bytes of a float in little-endian order. -/
def Float32.littleEndianBytes (f : Float32) : List Byte :=
  [f.byte 0, f.byte 1, f.byte 2, f.byte 3]

/-- The members of the model in the documented order of the persisted state. -/
def ParameterModel.savedOrder (m : ParameterModel) : List Float32 :=
  [m.fDelayTime,
   m.fDelayHostSync,
   m.fDelayFeedback,
   m.fDelayMix,
   m.fBitResolution,
   m.fBitResolutionChain,
   m.fLFOBitResolution,
   m.fLFOBitResolutionDepth,
   m.fDecimator,
   m.fDecimatorChain,
   m.fLFODecimator,
   m.fFilterChain,
   m.fFilterCutoff,
   m.fFilterResonance,
   m.fLFOFilter,
   m.fLFOFilterDepth]

/-- The persisted state as the specification words it: every member as a
32-bit float, little-endian, in the documented order. -/
def specSave (m : ParameterModel) : List Byte :=
  m.savedOrder.flatMap Float32.littleEndianBytes

/-- The little-endian float in the `i`-th group of four bytes. -/
def decodeFloatAt (bytes : List Byte) (i : Nat) : Float32 :=
  Float32.ofBytes (bytes.getD (4 * i) 0) (bytes.getD (4 * i + 1) 0)
    (bytes.getD (4 * i + 2) 0) (bytes.getD (4 * i + 3) 0)

/-- The model whose members are the sixteen floats of a persisted state, the
`i`-th group of four bytes going to the `i`-th member of the documented
order. -/
def specLoad (bytes : List Byte) : ParameterModel :=
  { fDelayTime := decodeFloatAt bytes 0
    fDelayHostSync := decodeFloatAt bytes 1
    fDelayFeedback := decodeFloatAt bytes 2
    fDelayMix := decodeFloatAt bytes 3
    fBitResolution := decodeFloatAt bytes 4
    fBitResolutionChain := decodeFloatAt bytes 5
    fLFOBitResolution := decodeFloatAt bytes 6
    fLFOBitResolutionDepth := decodeFloatAt bytes 7
    fDecimator := decodeFloatAt bytes 8
    fDecimatorChain := decodeFloatAt bytes 9
    fLFODecimator := decodeFloatAt bytes 10
    fFilterChain := decodeFloatAt bytes 11
    fFilterCutoff := decodeFloatAt bytes 12
    fFilterResonance := decodeFloatAt bytes 13
    fLFOFilter := decodeFloatAt bytes 14
    fLFOFilterDepth := decodeFloatAt bytes 15 }

/-! ## Sample inputs -/

/-- A stand-in for the target's floating-point operations, with which the
definitions can be evaluated; the narrowing keeps the high half of the
pattern, the promotion pads it with zeros. -/
def sampleFloatEnv : FloatEnv :=
  { toFloat := fun d => Float32.ofBits (d.bits / 4294967296)
    toDouble := fun f => ⟨f.bits * 4294967296, by have := f.isLt; omega⟩
    mul := fun a _ => a
    toInt := fun f => f.bits }

/-- The plugin right after construction and a successful `initialize`. -/
def sampleFogPad : FogPad := (FogPad.initialise FogPad.new kResultOk).2

/-- The plugin after it has accepted a mono proposal. -/
def monoFogPad : FogPad :=
  match FogPad.setBusArrangements sampleFogPad [SpeakerArr.kMono] [SpeakerArr.kMono] with
  | some (_, self) => self
  | none => sampleFogPad

/-- The `double` 0.5. -/
def d0_5 : Float64 := ⟨0x3FE0000000000000, by decide⟩
/-- The `double` 0.25. -/
def d0_25 : Float64 := ⟨0x3FD0000000000000, by decide⟩

/-- A block with one stereo input bus and one stereo output bus of 64
single-precision frames, carrying the given parameter changes. -/
def sampleBlock (changes : Option (List (Option ParamValueQueue)))
    (out : Option OutputParameterChanges) : ProcessData :=
  { inputParameterChanges := changes
    inputs := [⟨2, 0⟩]
    outputs := [⟨2, 0⟩]
    numSamples := 64
    symbolicSampleSize := kSample32
    outputParameterChanges := out }

/-- A block whose single input bus has no channels; the output bus is stereo. -/
def zeroChannelBlock : ProcessData :=
  { sampleBlock none none with inputs := [⟨0, 0⟩] }

/-- A host output list that hands out queues and holds no point yet. -/
def emptyOutput : OutputParameterChanges := ⟨true, []⟩

/-- A model that differs from the constructor's in two members. -/
def sampleModel : ParameterModel :=
  { FogPad.new.model with fDelayTime := f0_75, fFilterCutoff := f0_125 }

/-- The `double` 0.0; the stand-in narrowing takes it to `0.f`, as the C++
cast does. -/
def d0 : Float64 := ⟨0, by decide⟩

/-- The `double` 2.0. -/
def d2 : Float64 := ⟨0x4000000000000000, by decide⟩
/-- A processing setup as a host may hand it to `setupProcessing`: realtime,
single precision, blocks of at most 512 frames, 48 kHz. -/
def sampleSetup : ProcessSetup :=
  { processMode := 0
    symbolicSampleSize := kSample32
    maxSamplesPerBlock := 512
    sampleRate := ⟨0x40E7700000000000, by decide⟩ }

end Igorski

/-! # Theorems -/

namespace Igorski

open FogPad

/-! ## Auxiliary facts -/

theorem syncModel_model (fp : FloatEnv) (self : FogPad) :
    (syncModel fp self).model = self.model := rfl

theorem syncModel_outputGainOld (fp : FloatEnv) (self : FogPad) :
    (syncModel fp self).outputGainOld = self.outputGainOld := rfl

theorem syncModel_trace (fp : FloatEnv) (self : FogPad) :
    (syncModel fp self).trace = self.trace ++ [Effect.syncModel self.model] := rfl

theorem getPoint_last (id : Nat) (earlier : List Point) (last : Point) :
    (ParamValueQueue.mk id (earlier ++ [last])).getPoint
      ((ParamValueQueue.mk id (earlier ++ [last])).getPointCount - 1) = some last := by
  simp [ParamValueQueue.getPoint, ParamValueQueue.getPointCount]

theorem process_paramQueue_model (ids : ParamIds) (fp : FloatEnv) (self : FogPad)
    (q : ParamValueQueue) :
    (process_paramQueue ids fp self (some q)).model = process_switch ids fp self.model q := rfl

theorem process_paramQueue_outputGainOld (ids : ParamIds) (fp : FloatEnv) (self : FogPad)
    (q : Option ParamValueQueue) :
    (process_paramQueue ids fp self q).outputGainOld = self.outputGainOld := by
  cases q <;> rfl

theorem foldl_paramQueue_outputGainOld (ids : ParamIds) (fp : FloatEnv)
    (queues : List (Option ParamValueQueue)) (self : FogPad) :
    (queues.foldl (process_paramQueue ids fp) self).outputGainOld = self.outputGainOld := by
  induction queues generalizing self with
  | nil => rfl
  | cons q queues ih => rw [List.foldl_cons, ih, process_paramQueue_outputGainOld]

theorem readParameterChanges_outputGainOld (ids : ParamIds) (fp : FloatEnv) (self : FogPad)
    (changes : Option (List (Option ParamValueQueue))) :
    (process_readParameterChanges ids fp self changes).outputGainOld = self.outputGainOld := by
  cases changes with
  | none => rfl
  | some queues => exact foldl_paramQueue_outputGainOld ids fp queues self

theorem readParameterChanges_eq_foldl (ids : ParamIds) (fp : FloatEnv) (self : FogPad)
    (data : ProcessData) :
    process_readParameterChanges ids fp self data.inputParameterChanges =
      data.paramQueues.foldl (process_paramQueue ids fp) self := by
  unfold process_readParameterChanges ProcessData.paramQueues
  cases data.inputParameterChanges <;> rfl

/-- The audio part of `process` leaves the model as the parameter loop made it. -/
theorem process_model (ids : ParamIds) (fp : FloatEnv) (self : FogPad) (data : ProcessData)
    (limiterGR : Float32) :
    (process ids fp self data limiterGR).2.1.model =
      (data.paramQueues.foldl (process_paramQueue ids fp) self).model := by
  rw [← readParameterChanges_eq_foldl]
  unfold process
  simp only
  split
  · rfl
  · split <;> rfl

theorem process_switch_unknown (ids : ParamIds) (fp : FloatEnv) (m : ParameterModel)
    (q : ParamValueQueue) (hq : q.getParameterId ∉ ids.known) :
    process_switch ids fp m q = m := by
  simp only [ParamIds.known, List.mem_cons, List.mem_singleton, List.not_mem_nil, not_or,
    or_false] at hq
  simp [process_switch, hq]

theorem process_switch_known (ids : ParamIds) (fp : FloatEnv) (hd : ids.Distinct)
    (m0 : ParameterModel) (id : Nat) (earlier : List Point) (last : Point) :
    let m := process_switch ids fp m0 ⟨id, earlier ++ [last]⟩
    (id = ids.kDelayTimeId → m.fDelayTime = fp.toFloat last.value) ∧
    (id = ids.kDelayHostSyncId → m.fDelayHostSync = fp.toFloat last.value) ∧
    (id = ids.kDelayFeedbackId → m.fDelayFeedback = fp.toFloat last.value) ∧
    (id = ids.kDelayMixId → m.fDelayMix = fp.toFloat last.value) ∧
    (id = ids.kBitResolutionId → m.fBitResolution = fp.toFloat last.value) ∧
    (id = ids.kBitResolutionChainId → m.fBitResolutionChain = fp.toFloat last.value) ∧
    (id = ids.kLFOBitResolutionId → m.fLFOBitResolution = fp.toFloat last.value) ∧
    (id = ids.kLFOBitResolutionDepthId → m.fLFOBitResolutionDepth = fp.toFloat last.value) ∧
    (id = ids.kDecimatorId → m.fDecimator = fp.toFloat last.value) ∧
    (id = ids.kDecimatorChainId → m.fDecimatorChain = fp.toFloat last.value) ∧
    (id = ids.kLFODecimatorId → m.fLFODecimator = fp.toFloat last.value) ∧
    (id = ids.kFilterChainId → m.fFilterChain = fp.toFloat last.value) ∧
    (id = ids.kFilterCutoffId → m.fFilterCutoff = fp.toFloat last.value) ∧
    (id = ids.kFilterResonanceId → m.fFilterResonance = fp.toFloat last.value) ∧
    (id = ids.kLFOFilterId → m.fLFOFilter = fp.toFloat last.value) ∧
    (id = ids.kLFOFilterDepthId → m.fLFOFilterDepth = fp.toFloat last.value) := by
  have hp := getPoint_last id earlier last
  simp only [ParamIds.Distinct, ParamIds.known, List.nodup_cons, List.mem_cons, not_or,
    List.mem_singleton, List.not_mem_nil, List.nodup_nil, not_false_eq_true, and_true] at hd
  intro m
  refine ⟨?_, ?_, ?_, ?_, ?_, ?_, ?_, ?_, ?_, ?_, ?_, ?_, ?_, ?_, ?_, ?_⟩ <;> intro h <;> subst h <;>
    simp only [m, process_switch, ParamValueQueue.getParameterId] <;>
    simp only [hp] <;> simp [hd, eq_comm]

theorem foldl_paramQueue_trace (ids : ParamIds) (fp : FloatEnv)
    (queues : List (Option ParamValueQueue)) (self : FogPad) :
    (queues.foldl (process_paramQueue ids fp) self).trace =
      self.trace ++ syncRuns ids fp self.model queues := by
  induction queues generalizing self with
  | nil => simp [syncRuns]
  | cons q queues ih =>
    cases q with
    | none => simpa [process_paramQueue, syncRuns] using ih self
    | some q =>
      rw [List.foldl_cons, ih]
      simp [process_paramQueue, syncRuns, syncModel_trace, syncModel_model]

theorem syncRuns_all_sync (ids : ParamIds) (fp : FloatEnv)
    (queues : List (Option ParamValueQueue)) (m : ParameterModel) :
    (syncRuns ids fp m queues).filter Effect.isSync = syncRuns ids fp m queues := by
  induction queues generalizing m with
  | nil => rfl
  | cons q queues ih =>
    cases q with
    | none => simpa [syncRuns] using ih m
    | some q => simp [syncRuns, Effect.isSync, ih]

theorem syncRuns_length (ids : ParamIds) (fp : FloatEnv)
    (queues : List (Option ParamValueQueue)) (m : ParameterModel) :
    (syncRuns ids fp m queues).length = queues.countP Option.isSome := by
  induction queues generalizing m with
  | nil => rfl
  | cons q queues ih =>
    cases q with
    | none => simpa [syncRuns] using ih m
    | some q => simp [syncRuns, ih]

theorem syncRuns_getLast (ids : ParamIds) (fp : FloatEnv)
    (queues : List (Option ParamValueQueue)) (self : FogPad)
    (e : Effect) (he : (syncRuns ids fp self.model queues).getLast? = some e) :
    e = Effect.syncModel (queues.foldl (process_paramQueue ids fp) self).model := by
  induction queues generalizing self with
  | nil => simp [syncRuns] at he
  | cons q queues ih =>
    cases q with
    | none => exact ih self (by simpa [syncRuns] using he)
    | some q =>
      rw [List.foldl_cons]
      cases hrest : syncRuns ids fp (process_switch ids fp self.model q) queues with
      | nil =>
        have hl := syncRuns_length ids fp queues (process_switch ids fp self.model q)
        rw [hrest] at hl
        have hnone : ∀ x ∈ queues, x = none := by
          intro x hx
          have := List.countP_eq_zero.mp hl.symm x hx
          cases x <;> simp_all
        have hfold : ∀ (s : FogPad), queues.foldl (process_paramQueue ids fp) s = s := by
          clear ih he hrest hl
          induction queues with
          | nil => intro s; rfl
          | cons x xs ihx =>
            intro s
            have hx : x = none := hnone x (List.mem_cons_self _ _)
            subst hx
            exact ihx (fun y hy => hnone y (List.mem_cons_of_mem _ hy)) s
        rw [hfold]
        simp [syncRuns, hrest] at he
        rw [← he]; rfl
      | cons e' rest =>
        apply ih (process_paramQueue ids fp self (some q))
        rw [process_paramQueue_model, hrest]
        simp only [syncRuns, hrest] at he
        simpa [List.getLast?_cons_cons] using he

theorem process_trace_sync (ids : ParamIds) (fp : FloatEnv) (self : FogPad) (data : ProcessData)
    (limiterGR : Float32) :
    (process ids fp self data limiterGR).2.1.trace.filter Effect.isSync =
      (data.paramQueues.foldl (process_paramQueue ids fp) self).trace.filter Effect.isSync := by
  rw [← readParameterChanges_eq_foldl]
  unfold process
  simp only
  split
  · rfl
  · split
    · simp [Effect.isSync]
    · rfl

/-- The model after the parameter loop depends on the model before it only. -/
theorem foldl_paramQueue_model_congr (ids : ParamIds) (fp : FloatEnv)
    (queues : List (Option ParamValueQueue)) (s t : FogPad) (h : s.model = t.model) :
    (queues.foldl (process_paramQueue ids fp) s).model =
      (queues.foldl (process_paramQueue ids fp) t).model := by
  induction queues generalizing s t with
  | nil => exact h
  | cons q queues ih =>
    rw [List.foldl_cons, List.foldl_cons]
    apply ih
    cases q with
    | none => exact h
    | some q => rw [process_paramQueue_model, process_paramQueue_model, h]

/-! ## C1: last point wins -/

/-- Claim C1 (last-point-wins).  Let the last queue that `FogPad::process`
merges target a known parameter id and hold the points `earlier ++ [last]`,
so `N = earlier.length + 1 ≥ 1` and `last` is point `N - 1`.  Then after the
call the member bound to that id holds `( float ) last.value`, whatever the
earlier points (and the earlier queues of the batch) are. -/
theorem process_last_point_wins (ids : ParamIds) (fp : FloatEnv) (hd : ids.Distinct)
    (self : FogPad) (data : ProcessData) (limiterGR : Float32)
    (before : List (Option ParamValueQueue)) (id : Nat) (earlier : List Point) (last : Point)
    (hq : data.inputParameterChanges = some (before ++ [some ⟨id, earlier ++ [last]⟩])) :
    let m := (process ids fp self data limiterGR).2.1.model
    (id = ids.kDelayTimeId → m.fDelayTime = fp.toFloat last.value) ∧
    (id = ids.kDelayHostSyncId → m.fDelayHostSync = fp.toFloat last.value) ∧
    (id = ids.kDelayFeedbackId → m.fDelayFeedback = fp.toFloat last.value) ∧
    (id = ids.kDelayMixId → m.fDelayMix = fp.toFloat last.value) ∧
    (id = ids.kBitResolutionId → m.fBitResolution = fp.toFloat last.value) ∧
    (id = ids.kBitResolutionChainId → m.fBitResolutionChain = fp.toFloat last.value) ∧
    (id = ids.kLFOBitResolutionId → m.fLFOBitResolution = fp.toFloat last.value) ∧
    (id = ids.kLFOBitResolutionDepthId → m.fLFOBitResolutionDepth = fp.toFloat last.value) ∧
    (id = ids.kDecimatorId → m.fDecimator = fp.toFloat last.value) ∧
    (id = ids.kDecimatorChainId → m.fDecimatorChain = fp.toFloat last.value) ∧
    (id = ids.kLFODecimatorId → m.fLFODecimator = fp.toFloat last.value) ∧
    (id = ids.kFilterChainId → m.fFilterChain = fp.toFloat last.value) ∧
    (id = ids.kFilterCutoffId → m.fFilterCutoff = fp.toFloat last.value) ∧
    (id = ids.kFilterResonanceId → m.fFilterResonance = fp.toFloat last.value) ∧
    (id = ids.kLFOFilterId → m.fLFOFilter = fp.toFloat last.value) ∧
    (id = ids.kLFOFilterDepthId → m.fLFOFilterDepth = fp.toFloat last.value) := by
  intro m
  have hm : m = process_switch ids fp (before.foldl (process_paramQueue ids fp) self).model
      ⟨id, earlier ++ [last]⟩ := by
    simp only [m, process_model, ProcessData.paramQueues, hq, List.foldl_append,
      List.foldl_cons, List.foldl_nil, process_paramQueue_model]
  rw [hm]
  exact process_switch_known ids fp hd _ id earlier last

/-- Claim C1, at a concrete block: a queue for `kDelayMixId` with two points. -/
theorem process_last_point_wins_witness :
    (process consecutiveIds sampleFloatEnv sampleFogPad
      (sampleBlock (some [some ⟨3, [⟨0, d0_25⟩, ⟨7, d0_5⟩]⟩]) none) f0).2.1.model.fDelayMix
      = sampleFloatEnv.toFloat d0_5 :=
  (process_last_point_wins consecutiveIds sampleFloatEnv (by decide) sampleFogPad
    (sampleBlock (some [some ⟨3, [⟨0, d0_25⟩, ⟨7, d0_5⟩]⟩]) none) f0 [] 3
    [⟨0, d0_25⟩] ⟨7, d0_5⟩ rfl).2.2.2.1 rfl

/-! ## C2: saving and loading again -/

theorem Float32.eq_of_bits_eq {a b : Float32} (h : a.bits = b.bits) : a = b := by
  cases a; cases b; simp_all

theorem Float32.ofBytes_byte (f : Float32) :
    Float32.ofBytes (f.byte 0) (f.byte 1) (f.byte 2) (f.byte 3) = f := by
  apply Float32.eq_of_bits_eq
  have := f.isLt
  simp only [Float32.ofBytes, Float32.byte]
  norm_num
  omega

theorem Float32.byte_ofBytes (b0 b1 b2 b3 : Byte) :
    (Float32.ofBytes b0 b1 b2 b3).byte 0 = b0 ∧ (Float32.ofBytes b0 b1 b2 b3).byte 1 = b1 ∧
    (Float32.ofBytes b0 b1 b2 b3).byte 2 = b2 ∧ (Float32.ofBytes b0 b1 b2 b3).byte 3 = b3 := by
  have h0 := b0.isLt
  have h1 := b1.isLt
  have h2 := b2.isLt
  have h3 := b3.isLt
  refine ⟨?_, ?_, ?_, ?_⟩ <;> apply Fin.ext <;> simp only [Float32.ofBytes, Float32.byte] <;>
    norm_num <;> omega

/-- What a build writes for a float, read back by a build of the same byte
order, is the float again. -/
theorem memoryBytes_roundtrip (bo : ByteOrder) (f : Float32) :
    ∃ p0 p1 p2 p3, memoryBytes bo (swapIfBigEndian bo f) = [p0, p1, p2, p3] ∧
      swapIfBigEndian bo (ofMemoryBytes bo p0 p1 p2 p3) = f := by
  obtain ⟨g0, g1, g2, g3⟩ := Float32.byte_ofBytes (f.byte 3) (f.byte 2) (f.byte 1) (f.byte 0)
  cases bo with
  | kLittleEndian =>
    exact ⟨f.byte 0, f.byte 1, f.byte 2, f.byte 3, rfl, by
      simp [swapIfBigEndian, ofMemoryBytes, Float32.ofBytes_byte]⟩
  | kBigEndian =>
    refine ⟨f.byte 0, f.byte 1, f.byte 2, f.byte 3, ?_, ?_⟩
    · simp [swapIfBigEndian, SWAP_32, memoryBytes, ofMemoryBytes, g0, g1, g2, g3]
    · simp [swapIfBigEndian, SWAP_32, memoryBytes, ofMemoryBytes, g0, g1, g2, g3,
        Float32.ofBytes_byte]

/-- Loading what `getState` wrote gives the saved model, pushed once into the
chain. -/
theorem setState_getState (bo : ByteOrder) (self prior : FogPad) (fp : FloatEnv) :
    (getState bo self ⟨[], 0⟩).1 = kResultOk ∧
    setState bo fp prior ⟨(getState bo self ⟨[], 0⟩).2.bytes, 0⟩ =
      (kResultOk, syncModel fp { prior with model := self.model }) := by
  refine ⟨rfl, ?_⟩
  obtain ⟨a0, b0, c0, d0, w0, r0⟩ := memoryBytes_roundtrip bo self.model.fDelayTime
  obtain ⟨a1, b1, c1, d1, w1, r1⟩ := memoryBytes_roundtrip bo self.model.fDelayHostSync
  obtain ⟨a2, b2, c2, d2, w2, r2⟩ := memoryBytes_roundtrip bo self.model.fDelayFeedback
  obtain ⟨a3, b3, c3, d3, w3, r3⟩ := memoryBytes_roundtrip bo self.model.fDelayMix
  obtain ⟨a4, b4, c4, d4, w4, r4⟩ := memoryBytes_roundtrip bo self.model.fBitResolution
  obtain ⟨a5, b5, c5, d5, w5, r5⟩ := memoryBytes_roundtrip bo self.model.fBitResolutionChain
  obtain ⟨a6, b6, c6, d6, w6, r6⟩ := memoryBytes_roundtrip bo self.model.fLFOBitResolution
  obtain ⟨a7, b7, c7, d7, w7, r7⟩ := memoryBytes_roundtrip bo self.model.fLFOBitResolutionDepth
  obtain ⟨a8, b8, c8, d8, w8, r8⟩ := memoryBytes_roundtrip bo self.model.fDecimator
  obtain ⟨a9, b9, c9, d9, w9, r9⟩ := memoryBytes_roundtrip bo self.model.fDecimatorChain
  obtain ⟨a10, b10, c10, d10, w10, r10⟩ := memoryBytes_roundtrip bo self.model.fLFODecimator
  obtain ⟨a11, b11, c11, d11, w11, r11⟩ := memoryBytes_roundtrip bo self.model.fFilterChain
  obtain ⟨a12, b12, c12, d12, w12, r12⟩ := memoryBytes_roundtrip bo self.model.fFilterCutoff
  obtain ⟨a13, b13, c13, d13, w13, r13⟩ := memoryBytes_roundtrip bo self.model.fFilterResonance
  obtain ⟨a14, b14, c14, d14, w14, r14⟩ := memoryBytes_roundtrip bo self.model.fLFOFilter
  obtain ⟨a15, b15, c15, d15, w15, r15⟩ := memoryBytes_roundtrip bo self.model.fLFOFilterDepth
  simp only [getState, IBStream.writeFloat, w0, w1, w2, w3, w4, w5, w6, w7, w8, w9, w10, w11, w12, w13, w14, w15, List.nil_append, List.append_assoc,
    List.cons_append]
  simp only [setState, IBStream.readFloat, List.drop_zero, List.drop_succ_cons, Nat.zero_add,
    Nat.reduceAdd, r0, r1, r2, r3, r4, r5, r6, r7, r8, r9, r10, r11, r12, r13, r14, r15]

/-- Claim C2 (round-trip).  For every model (the members of `self`), every
plugin state `prior` that loads, and either byte order of the build:
`getState` succeeds, `setState` on the bytes it wrote succeeds, and the loaded
model is the saved one, member for member (the same 32-bit patterns). -/
theorem setState_getState_roundtrip (bo : ByteOrder) (fp : FloatEnv) (self prior : FogPad) :
    (getState bo self ⟨[], 0⟩).1 = kResultOk ∧
    (setState bo fp prior ⟨(getState bo self ⟨[], 0⟩).2.bytes, 0⟩).1 = kResultOk ∧
    (setState bo fp prior ⟨(getState bo self ⟨[], 0⟩).2.bytes, 0⟩).2.model = self.model := by
  obtain ⟨h1, h2⟩ := setState_getState bo self prior fp
  rw [h2]
  exact ⟨h1, rfl, rfl⟩

/-! ## Streams whose read fails when bytes are missing -/

/-- A read that succeeds found four bytes at the cursor and moved past them. -/
theorem IBStream.readFloat_some {state state' : IBStream} {bo : ByteOrder} {x : Float32}
    (h : state.readFloat bo = some (x, state')) :
    state'.bytes.length = state.bytes.length ∧ state'.cursor = state.cursor + 4 ∧
      state.cursor + 4 ≤ state.bytes.length := by
  unfold IBStream.readFloat at h
  split at h
  · rename_i p0 p1 p2 p3 rest hd
    have hl := congrArg List.length hd
    simp only [List.length_drop, List.length_cons] at hl
    simp only [Option.some.injEq, Prod.mk.injEq] at h
    obtain ⟨-, rfl⟩ := h
    exact ⟨rfl, rfl, by omega⟩
  · simp at h

/-- On the stream whose read answers a failure when fewer than four bytes are
left, a state of fewer than 64 bytes is refused and the plugin is as it
was. -/
theorem setState_of_short (bo : ByteOrder) (fp : FloatEnv) (self : FogPad) (state : IBStream)
    (hshort : state.bytes.length - state.cursor < 64) :
    setState bo fp self state = (kResultFalse, self) := by
  unfold setState
  split
  · rfl
  rename_i x0 s0 h0
  have e0 := IBStream.readFloat_some h0
  split
  · rfl
  rename_i x1 s1 h1
  have e1 := IBStream.readFloat_some h1
  split
  · rfl
  rename_i x2 s2 h2
  have e2 := IBStream.readFloat_some h2
  split
  · rfl
  rename_i x3 s3 h3
  have e3 := IBStream.readFloat_some h3
  split
  · rfl
  rename_i x4 s4 h4
  have e4 := IBStream.readFloat_some h4
  split
  · rfl
  rename_i x5 s5 h5
  have e5 := IBStream.readFloat_some h5
  split
  · rfl
  rename_i x6 s6 h6
  have e6 := IBStream.readFloat_some h6
  split
  · rfl
  rename_i x7 s7 h7
  have e7 := IBStream.readFloat_some h7
  split
  · rfl
  rename_i x8 s8 h8
  have e8 := IBStream.readFloat_some h8
  split
  · rfl
  rename_i x9 s9 h9
  have e9 := IBStream.readFloat_some h9
  split
  · rfl
  rename_i x10 s10 h10
  have e10 := IBStream.readFloat_some h10
  split
  · rfl
  rename_i x11 s11 h11
  have e11 := IBStream.readFloat_some h11
  split
  · rfl
  rename_i x12 s12 h12
  have e12 := IBStream.readFloat_some h12
  split
  · rfl
  rename_i x13 s13 h13
  have e13 := IBStream.readFloat_some h13
  split
  · rfl
  rename_i x14 s14 h14
  have e14 := IBStream.readFloat_some h14
  split
  · rfl
  rename_i x15 s15 h15
  have e15 := IBStream.readFloat_some h15
  exfalso
  omega

/-! ## C4: runs of `syncModel` per batch -/

/-- Claim C4, refuted as stated: on a batch of two queues `FogPad::process`
runs `syncModel` twice, and on a batch without queues it does not run it. -/
theorem process_sync_count_counterexample :
    ((process consecutiveIds sampleFloatEnv sampleFogPad
        (sampleBlock (some [some ⟨0, [⟨0, d0_5⟩]⟩, some ⟨1, [⟨0, d0_25⟩]⟩]) none)
        f0).2.1.trace.filter Effect.isSync).length = 2 ∧
    ((process consecutiveIds sampleFloatEnv sampleFogPad
        (sampleBlock (some []) none) f0).2.1.trace.filter Effect.isSync).length = 0 := by
  decide

/-- Claim C4, amended.  One call of `FogPad::process` runs `syncModel` once
for every non-null queue of the batch, right after the switch has handled
that queue: the runs it adds to the trace are `syncRuns`, as many as there
are non-null queues, and the last of them (if any) pushes the model as it is
after all queues of the batch have been applied. -/
theorem process_sync_per_queue (ids : ParamIds) (fp : FloatEnv) (self : FogPad)
    (data : ProcessData) (limiterGR : Float32) :
    (process ids fp self data limiterGR).2.1.trace.filter Effect.isSync =
      self.trace.filter Effect.isSync ++ syncRuns ids fp self.model data.paramQueues ∧
    (syncRuns ids fp self.model data.paramQueues).length =
      data.paramQueues.countP Option.isSome ∧
    ∀ e, (syncRuns ids fp self.model data.paramQueues).getLast? = some e →
      e = Effect.syncModel (process ids fp self data limiterGR).2.1.model := by
  refine ⟨?_, syncRuns_length _ _ _ _, ?_⟩
  · rw [process_trace_sync, foldl_paramQueue_trace, List.filter_append, syncRuns_all_sync]
  · intro e he
    rw [process_model]
    exact syncRuns_getLast ids fp _ self e he

/-! ## C5: unknown ids -/

/-- Claim C5 (unknown-id no-op).  A queue whose parameter id is none of the
sixteen case labels changes no member of the model, whatever its points:
merged alone it leaves the model as it was, and anywhere in a batch the
model after `FogPad::process` is the one the batch without it gives. -/
theorem process_unknown_id_noop (ids : ParamIds) (fp : FloatEnv) (self : FogPad)
    (data : ProcessData) (limiterGR : Float32) (q : ParamValueQueue)
    (hq : q.getParameterId ∉ ids.known) :
    (data.inputParameterChanges = some [some q] →
      (process ids fp self data limiterGR).2.1.model = self.model) ∧
    ∀ before after, data.inputParameterChanges = some (before ++ some q :: after) →
      (process ids fp self data limiterGR).2.1.model =
        (process ids fp self { data with inputParameterChanges := some (before ++ after) }
          limiterGR).2.1.model := by
  have hstep : ∀ s : FogPad, (process_paramQueue ids fp s (some q)).model = s.model := by
    intro s
    rw [process_paramQueue_model, process_switch_unknown ids fp _ q hq]
  constructor
  · intro h
    simp only [process_model, ProcessData.paramQueues, h, List.foldl_cons, List.foldl_nil, hstep]
  · intro before after h
    simp only [process_model, ProcessData.paramQueues, h, List.foldl_append, List.foldl_cons]
    exact foldl_paramQueue_model_congr ids fp after _ _ (hstep _)

/-- Claim C5, at a concrete block: a queue for the unused id 99. -/
theorem process_unknown_id_noop_witness :
    (process consecutiveIds sampleFloatEnv sampleFogPad
      (sampleBlock (some [some ⟨99, [⟨0, d0_25⟩]⟩]) none) f0).2.1.model = sampleFogPad.model :=
  (process_unknown_id_noop consecutiveIds sampleFloatEnv sampleFogPad
    (sampleBlock (some [some ⟨99, [⟨0, d0_25⟩]⟩]) none) f0 ⟨99, [⟨0, d0_25⟩]⟩
    (by decide)).1 rfl

/-! ## C6, C7: bus arrangements -/

/-- A plugin with topology `n` has exactly one input and one output bus, with
`n` channels each. -/
theorem hasTopology_iff (self : FogPad) (n : Int) :
    self.hasTopology n = true ↔
      ∃ i o, self.audioInputs = [i] ∧ self.audioOutputs = [o] ∧
        SpeakerArr.getChannelCount i.arr = n ∧ SpeakerArr.getChannelCount o.arr = n := by
  unfold hasTopology
  split
  · rename_i i o hi ho
    simp [hi, ho]
  · rename_i hne
    constructor
    · intro h; cases h
    · rintro ⟨i, o, hi, ho, -, -⟩
      exact absurd ho (hne i o hi)

theorem getChannelCount_kStereo : SpeakerArr.getChannelCount SpeakerArr.kStereo = 2 := by
  decide

/-- A Stereo/Stereo or Mono/Mono plugin has one bus each way, of equal channel
count. -/
theorem buses_of_topology (self : FogPad)
    (hstate : self.isStereoStereo = true ∨ self.isMonoMono = true) :
    ∃ i o, self.audioInputs = [i] ∧ self.audioOutputs = [o] ∧
      SpeakerArr.getChannelCount o.arr = SpeakerArr.getChannelCount i.arr ∧
      (SpeakerArr.getChannelCount i.arr = 2 ∨ SpeakerArr.getChannelCount i.arr = 1) := by
  rcases hstate with h | h
  · obtain ⟨i, o, hi, ho, hci, hco⟩ := (hasTopology_iff self 2).mp h
    exact ⟨i, o, hi, ho, by rw [hci, hco], Or.inl hci⟩
  · obtain ⟨i, o, hi, ho, hci, hco⟩ := (hasTopology_iff self 1).mp h
    exact ⟨i, o, hi, ho, by rw [hci, hco], Or.inr hci⟩

/-- The mono branch of `setBusArrangements`. -/
theorem setBusArrangements_mono (self : FogPad) (a b : SpeakerArrangement) (i : AudioBus)
    (rest : List AudioBus) (hi : self.audioInputs = i :: rest)
    (ha : SpeakerArr.getChannelCount a = 1) (hb : SpeakerArr.getChannelCount b = 1) :
    setBusArrangements self [a] [b] =
      some (kResultOk,
        if i.arr ≠ a then
          { self with audioInputs := [⟨"Mono In", a⟩], audioOutputs := [⟨"Mono Out", a⟩] }
        else self) := by
  by_cases harr : i.arr = a <;>
    simp [setBusArrangements, ha, hb, hi, AudioBus.getArrangement, harr, removeAudioBusses,
      addAudioInput, addAudioOutput]

/-- The stereo branch of `setBusArrangements`. -/
theorem setBusArrangements_stereo (self : FogPad) (a b : SpeakerArrangement) (i : AudioBus)
    (rest : List AudioBus) (hi : self.audioInputs = i :: rest)
    (ha : SpeakerArr.getChannelCount a = 2) (hb : SpeakerArr.getChannelCount b = 2) :
    setBusArrangements self [a] [b] =
      some (kResultTrue,
        { self with audioInputs := [⟨"Stereo In", a⟩], audioOutputs := [⟨"Stereo Out", b⟩] }) := by
  simp [setBusArrangements, ha, hb, hi, removeAudioBusses, addAudioInput, addAudioOutput]

/-- The fallback branch of `setBusArrangements`. -/
theorem setBusArrangements_other (self : FogPad) (a b : SpeakerArrangement) (i : AudioBus)
    (rest : List AudioBus) (hi : self.audioInputs = i :: rest)
    (h1 : ¬(SpeakerArr.getChannelCount a = 1 ∧ SpeakerArr.getChannelCount b = 1))
    (h2 : ¬(SpeakerArr.getChannelCount a = 2 ∧ SpeakerArr.getChannelCount b = 2)) :
    setBusArrangements self [a] [b] =
      some (kResultFalse,
        if i.arr ≠ SpeakerArr.kStereo then
          { self with audioInputs := [⟨"Stereo In", SpeakerArr.kStereo⟩],
                      audioOutputs := [⟨"Stereo Out", SpeakerArr.kStereo⟩] }
        else self) := by
  by_cases harr : i.arr = SpeakerArr.kStereo <;>
    simp [setBusArrangements, h1, h2, hi, AudioBus.getArrangement, harr, removeAudioBusses,
      addAudioInput, addAudioOutput]

/-- Claim C6 (channel negotiation, accept cases).  From a plugin whose buses
are Stereo/Stereo or Mono/Mono, for a proposal of one input arrangement `a`
and one output arrangement `b`: with one channel each the proposal is
accepted and the buses are Mono/Mono afterwards; with two channels each it is
accepted and the input bus has arrangement `a`, the output bus arrangement
`b`; with three channels each it is rejected. -/
theorem setBusArrangements_accept (self : FogPad) (a b : SpeakerArrangement)
    (hstate : self.isStereoStereo = true ∨ self.isMonoMono = true) :
    (SpeakerArr.getChannelCount a = 1 ∧ SpeakerArr.getChannelCount b = 1 →
      ∃ self', setBusArrangements self [a] [b] = some (kResultOk, self') ∧
        self'.isMonoMono = true) ∧
    (SpeakerArr.getChannelCount a = 2 ∧ SpeakerArr.getChannelCount b = 2 →
      setBusArrangements self [a] [b] =
        some (kResultTrue, { self with audioInputs := [⟨"Stereo In", a⟩],
                                       audioOutputs := [⟨"Stereo Out", b⟩] })) ∧
    (SpeakerArr.getChannelCount a = 3 ∧ SpeakerArr.getChannelCount b = 3 →
      ∃ self', setBusArrangements self [a] [b] = some (kResultFalse, self')) := by
  obtain ⟨i, o, hi, ho, hco, -⟩ := buses_of_topology self hstate
  refine ⟨?_, ?_, ?_⟩
  · rintro ⟨ha, hb⟩
    refine ⟨_, setBusArrangements_mono self a b i [] hi ha hb, ?_⟩
    by_cases harr : i.arr = a
    · rw [if_neg (not_not.mpr harr), isMonoMono, hasTopology_iff]
      refine ⟨i, o, hi, ho, ?_, ?_⟩
      · rw [harr]; exact ha
      · rw [hco, harr]; exact ha
    · rw [if_pos harr]
      simp [isMonoMono, hasTopology, ha]
  · rintro ⟨ha, hb⟩
    exact setBusArrangements_stereo self a b i [] hi ha hb
  · rintro ⟨ha, hb⟩
    exact ⟨_, setBusArrangements_other self a b i [] hi (by omega) (by omega)⟩

/-- Claim C6, at the plugin right after `initialize` and a mono proposal. -/
theorem setBusArrangements_accept_witness :
    ∃ self', setBusArrangements sampleFogPad [SpeakerArr.kMono] [SpeakerArr.kMono] =
      some (kResultOk, self') ∧ self'.isMonoMono = true :=
  (setBusArrangements_accept sampleFogPad SpeakerArr.kMono SpeakerArr.kMono
    (Or.inl (by decide))).1 ⟨by decide, by decide⟩

/-- Claim C7, refuted as stated: a Mono/Mono plugin that is offered two stereo
input buses and one stereo output bus rejects the proposal and stays
Mono/Mono. -/
theorem multi_bus_proposal_keeps_mono :
    monoFogPad.isMonoMono = true ∧
    setBusArrangements monoFogPad [SpeakerArr.kStereo, SpeakerArr.kStereo] [SpeakerArr.kStereo]
      = some (kResultFalse, monoFogPad) ∧
    monoFogPad.isStereoStereo = false := by
  decide

/-- Claim C7, amended.  From a plugin whose buses are Stereo/Stereo or
Mono/Mono, a proposal of one input arrangement `a` and one output arrangement
`b` that is neither one channel each nor two channels each is rejected, and
the buses are Stereo/Stereo afterwards (both `kStereo` unless the input bus
already was `kStereo`, in which case the buses stay as they are).  A proposal
with another number of input or output buses is rejected and changes
nothing. -/
theorem setBusArrangements_fallback (self : FogPad)
    (hstate : self.isStereoStereo = true ∨ self.isMonoMono = true) :
    (∀ a b, ¬(SpeakerArr.getChannelCount a = 1 ∧ SpeakerArr.getChannelCount b = 1) →
      ¬(SpeakerArr.getChannelCount a = 2 ∧ SpeakerArr.getChannelCount b = 2) →
      ∃ self', setBusArrangements self [a] [b] = some (kResultFalse, self') ∧
        self'.isStereoStereo = true) ∧
    (∀ inputs outputs, ¬(inputs.length = 1 ∧ outputs.length = 1) →
      setBusArrangements self inputs outputs = some (kResultFalse, self)) := by
  obtain ⟨i, o, hi, ho, hco, hci⟩ := buses_of_topology self hstate
  constructor
  · intro a b h1 h2
    refine ⟨_, setBusArrangements_other self a b i [] hi h1 h2, ?_⟩
    by_cases harr : i.arr = SpeakerArr.kStereo
    · rw [if_neg (not_not.mpr harr), isStereoStereo, hasTopology_iff]
      have h2i : SpeakerArr.getChannelCount i.arr = 2 := by
        rw [harr]; exact getChannelCount_kStereo
      exact ⟨i, o, hi, ho, h2i, by rw [hco, h2i]⟩
    · rw [if_pos harr]
      simp [isStereoStereo, hasTopology, getChannelCount_kStereo]
  · intro inputs outputs hlen
    unfold setBusArrangements
    split
    · simp at hlen
    · rfl

/-- Claim C7 as amended, at the Mono/Mono plugin and a proposal of three
channels each way. -/
theorem setBusArrangements_fallback_witness :
    ∃ self', setBusArrangements monoFogPad [7] [7] = some (kResultFalse, self') ∧
      self'.isStereoStereo = true :=
  (setBusArrangements_fallback monoFogPad (Or.inr (by decide))).1 7 7
    (by decide) (by decide)

/-! ## C8: the guard on the buses -/

theorem syncRuns_no_process (ids : ParamIds) (fp : FloatEnv)
    (queues : List (Option ParamValueQueue)) (m : ParameterModel) :
    (syncRuns ids fp m queues).filter Effect.isProcess = [] := by
  induction queues generalizing m with
  | nil => rfl
  | cons q queues ih =>
    cases q with
    | none => simpa [syncRuns] using ih m
    | some q => simp [syncRuns, Effect.isProcess, ih]

/-- The entry guard of the audio part of `process` in terms of the bus lists. -/
theorem process_of_no_buses (ids : ParamIds) (fp : FloatEnv) (self : FogPad)
    (data : ProcessData) (limiterGR : Float32)
    (h : data.numInputs = 0 ∨ data.numOutputs = 0) :
    process ids fp self data limiterGR =
      (kResultOk, data.paramQueues.foldl (process_paramQueue ids fp) self, data) := by
  rw [← readParameterChanges_eq_foldl]
  unfold process
  simp only
  rw [if_pos h]

/-- Claim C8, refuted as stated: a block with one input bus of zero channels
and one stereo output bus is handed to the chain, with input channel count 0,
and the cached metering value changes from `0.f` to what the limiter
reports. -/
theorem process_zero_channels_counterexample :
    zeroChannelBlock.inputs.map AudioBusBuffers.numChannels = [0] ∧
    (process consecutiveIds sampleFloatEnv sampleFogPad zeroChannelBlock f1).2.1.trace =
      [Effect.process false 0 2 64 256] ∧
    sampleFogPad.outputGainOld = f0 ∧
    (process consecutiveIds sampleFloatEnv sampleFogPad zeroChannelBlock f1).2.1.outputGainOld =
      f1 := by
  decide

/-- The parameter loop leaves the processing setup alone. -/
theorem foldl_paramQueue_processSetup (ids : ParamIds) (fp : FloatEnv)
    (queues : List (Option ParamValueQueue)) (self : FogPad) :
    (queues.foldl (process_paramQueue ids fp) self).processSetup = self.processSetup := by
  induction queues generalizing self with
  | nil => rfl
  | cons q queues ih =>
    rw [List.foldl_cons, ih]
    cases q <;> rfl

/-- The audio part of `process` for a block with an input and an output bus:
one call of the chain with the channel counts of the first buses, then the
cache takes the limiter's value. -/
theorem process_of_buses (ids : ParamIds) (fp : FloatEnv) (self : FogPad)
    (data : ProcessData) (limiterGR : Float32) (in0 out0 : AudioBusBuffers)
    (ins outs : List AudioBusBuffers)
    (hi : data.inputs = in0 :: ins) (ho : data.outputs = out0 :: outs) :
    (process ids fp self data limiterGR).2.1.trace =
      (data.paramQueues.foldl (process_paramQueue ids fp) self).trace ++
        [Effect.process (decide (data.symbolicSampleSize = kSample64)) in0.numChannels
          out0.numChannels data.numSamples
          (getSampleFramesSizeInBytes self.processSetup data.numSamples)] ∧
    (process ids fp self data limiterGR).2.1.outputGainOld = limiterGR := by
  rw [← foldl_paramQueue_processSetup ids fp data.paramQueues self,
    ← readParameterChanges_eq_foldl]
  unfold process
  simp only [ProcessData.numInputs, ProcessData.numOutputs, hi, ho, List.length_cons]
  rw [if_neg (by omega)]
  exact ⟨rfl, rfl⟩

/-- Claim C8, amended.  When the block has no input bus or no output bus
(`data.numInputs == 0 || data.numOutputs == 0`), `FogPad::process` answers
`kResultOk` without calling the chain's `process`, leaves the cached metering
value `outputGainOld` as it was and hands the block data back untouched.
When the block has an input bus and an output bus, the chain's `process` is
called exactly once, after the runs of `syncModel`, with the channel counts
of the first input and the first output bus, whatever these counts are (zero
included), and the cached metering value becomes what the limiter reports. -/
theorem process_bus_guard (ids : ParamIds) (fp : FloatEnv) (self : FogPad)
    (data : ProcessData) (limiterGR : Float32) :
    (data.numInputs = 0 ∨ data.numOutputs = 0 →
      (process ids fp self data limiterGR).1 = kResultOk ∧
      (process ids fp self data limiterGR).2.1.trace.filter Effect.isProcess =
        self.trace.filter Effect.isProcess ∧
      (process ids fp self data limiterGR).2.1.trace =
        self.trace ++ syncRuns ids fp self.model data.paramQueues ∧
      (process ids fp self data limiterGR).2.1.outputGainOld = self.outputGainOld ∧
      (process ids fp self data limiterGR).2.2 = data) ∧
    (∀ (in0 out0 : AudioBusBuffers) (ins outs : List AudioBusBuffers),
      data.inputs = in0 :: ins → data.outputs = out0 :: outs →
      (process ids fp self data limiterGR).2.1.trace =
        self.trace ++ syncRuns ids fp self.model data.paramQueues ++
          [Effect.process (decide (data.symbolicSampleSize = kSample64)) in0.numChannels
            out0.numChannels data.numSamples
            (getSampleFramesSizeInBytes self.processSetup data.numSamples)] ∧
      (process ids fp self data limiterGR).2.1.outputGainOld = limiterGR) := by
  constructor
  · intro h
    rw [process_of_no_buses ids fp self data limiterGR h]
    refine ⟨rfl, ?_, foldl_paramQueue_trace ids fp _ self,
      foldl_paramQueue_outputGainOld ids fp _ self, rfl⟩
    simp only [foldl_paramQueue_trace, List.filter_append, syncRuns_no_process,
      List.append_nil]
  · intro in0 out0 ins outs hi ho
    obtain ⟨ht, hg⟩ := process_of_buses ids fp self data limiterGR in0 out0 ins outs hi ho
    rw [ht, foldl_paramQueue_trace]
    exact ⟨rfl, hg⟩

/-- Claim C8 as amended, at a block without buses that carries one parameter
change, and at a block whose input bus has no channels. -/
theorem process_bus_guard_witness :
    (process consecutiveIds sampleFloatEnv sampleFogPad
      { sampleBlock (some [some ⟨0, [⟨0, d0_5⟩]⟩]) (some emptyOutput) with inputs := [] }
      f1).2.1.outputGainOld = sampleFogPad.outputGainOld ∧
    (process consecutiveIds sampleFloatEnv sampleFogPad zeroChannelBlock f1).2.1.outputGainOld =
      f1 :=
  ⟨((process_bus_guard consecutiveIds sampleFloatEnv sampleFogPad
      { sampleBlock (some [some ⟨0, [⟨0, d0_5⟩]⟩]) (some emptyOutput) with inputs := [] }
      f1).1 (Or.inl rfl)).2.2.2.1,
   ((process_bus_guard consecutiveIds sampleFloatEnv sampleFogPad zeroChannelBlock f1).2
      ⟨0, 0⟩ ⟨2, 0⟩ [] [] rfl rfl).2⟩

/-! ## C9, C10: the metering point -/

/-- The output parameter changes after `process`, for a block with buses. -/
theorem process_output_of_buses (ids : ParamIds) (fp : FloatEnv) (self : FogPad)
    (data : ProcessData) (limiterGR : Float32)
    (hin : data.numInputs ≠ 0) (hout : data.numOutputs ≠ 0) :
    (process ids fp self data limiterGR).2.2.outputParameterChanges =
      process_writeOutput ids fp (decide (data.symbolicSampleSize = kSample64))
        self.outputGainOld limiterGR data.outputParameterChanges := by
  unfold process
  simp only
  rw [if_neg (by simp [hin, hout])]
  split
  · simp only [readParameterChanges_outputGainOld]
  · rename_i hne
    unfold ProcessData.numInputs at hin
    unfold ProcessData.numOutputs at hout
    cases hi : data.inputs with
    | nil => simp [hi] at hin
    | cons i is =>
      cases ho : data.outputs with
      | nil => simp [ho] at hout
      | cons o os => exact absurd ho (hne i is o os hi)

/-- Claim C9 (metering delta-gating).  For every block and either sample
size: when the metering value read after processing compares equal (`==`) to
the value cached from the previous block, `FogPad::process` leaves the host's
output parameter changes as they were: no point is emitted. -/
theorem process_meter_equal_no_point (ids : ParamIds) (fp : FloatEnv) (self : FogPad)
    (data : ProcessData) (limiterGR : Float32)
    (heq : Float32.eq self.outputGainOld limiterGR = true) :
    (process ids fp self data limiterGR).2.2.outputParameterChanges =
      data.outputParameterChanges := by
  by_cases h : data.numInputs = 0 ∨ data.numOutputs = 0
  · rw [process_of_no_buses ids fp self data limiterGR h]
  · rw [not_or] at h
    rw [process_output_of_buses ids fp self data limiterGR h.1 h.2]
    unfold process_writeOutput
    cases data.outputParameterChanges with
    | none => rfl
    | some changes => simp [Float32.ne, heq]

/-- Claim C9, at a single-precision block: the cache holds `0.f`, the limiter
reports negative zero. -/
theorem process_meter_equal_no_point_witness :
    (process consecutiveIds sampleFloatEnv sampleFogPad (sampleBlock none (some emptyOutput))
      ⟨0x80000000, by decide⟩).2.2.outputParameterChanges = some emptyOutput :=
  process_meter_equal_no_point consecutiveIds sampleFloatEnv sampleFogPad
    (sampleBlock none (some emptyOutput)) ⟨0x80000000, by decide⟩ (by decide)

/-- Claim C10 (metering emission).  For a block with buses, a host output
list `changes` that hands out a queue, and a metering value that differs
(`!=`) from the cached one: when the sample size is not `kSample64`, exactly
one point is added, for `kVuPPMId`, at sample offset 0, with the metering
value (promoted to `double`) as its value; when the sample size is
`kSample64`, no point is added. -/
theorem process_meter_changed_point (ids : ParamIds) (fp : FloatEnv) (self : FogPad)
    (data : ProcessData) (limiterGR : Float32) (changes : OutputParameterChanges)
    (hin : data.numInputs ≠ 0) (hout : data.numOutputs ≠ 0)
    (hchanges : data.outputParameterChanges = some changes)
    (hqueue : changes.yieldsQueue = true)
    (hne : Float32.ne self.outputGainOld limiterGR = true) :
    (data.symbolicSampleSize ≠ kSample64 →
      (process ids fp self data limiterGR).2.2.outputParameterChanges =
        some { changes with
          points := changes.points ++ [⟨ids.kVuPPMId, 0, fp.toDouble limiterGR⟩] }) ∧
    (data.symbolicSampleSize = kSample64 →
      (process ids fp self data limiterGR).2.2.outputParameterChanges = some changes) := by
  rw [process_output_of_buses ids fp self data limiterGR hin hout, hchanges]
  constructor
  · intro hs
    simp [process_writeOutput, hs, hne, hqueue]
  · intro hs
    simp [process_writeOutput, hs]

/-- Claim C10, at a single-precision block: the cache holds `0.f`, the
limiter reports `1.f`. -/
theorem process_meter_changed_point_witness :
    (process consecutiveIds sampleFloatEnv sampleFogPad (sampleBlock none (some emptyOutput))
      f1).2.2.outputParameterChanges =
      some ⟨true, [⟨consecutiveIds.kVuPPMId, 0, sampleFloatEnv.toDouble f1⟩]⟩ :=
  (process_meter_changed_point consecutiveIds sampleFloatEnv sampleFogPad
    (sampleBlock none (some emptyOutput)) f1 emptyOutput (by decide) (by decide) rfl rfl
    (by decide)).1 (by decide)

/-! ## The persisted layout -/

/-- What either build puts into memory for a float before writing it is the
little-endian image of the float. -/
theorem memoryBytes_swap (bo : ByteOrder) (f : Float32) :
    memoryBytes bo (swapIfBigEndian bo f) = f.littleEndianBytes := by
  obtain ⟨g0, g1, g2, g3⟩ := Float32.byte_ofBytes (f.byte 3) (f.byte 2) (f.byte 1) (f.byte 0)
  cases bo with
  | kLittleEndian => rfl
  | kBigEndian =>
    simp [swapIfBigEndian, SWAP_32, memoryBytes, ofMemoryBytes, g0, g1, g2, g3,
      Float32.littleEndianBytes]

/-- What either build makes of four bytes read into a float is their
little-endian value. -/
theorem swap_ofMemoryBytes (bo : ByteOrder) (p0 p1 p2 p3 : Byte) :
    swapIfBigEndian bo (ofMemoryBytes bo p0 p1 p2 p3) = Float32.ofBytes p0 p1 p2 p3 := by
  obtain ⟨g0, g1, g2, g3⟩ := Float32.byte_ofBytes p3 p2 p1 p0
  cases bo with
  | kLittleEndian => rfl
  | kBigEndian =>
    simp [swapIfBigEndian, SWAP_32, memoryBytes, ofMemoryBytes, g0, g1, g2, g3]

/-- On any stream, `getState` appends the layout of the specification. -/
theorem getState_bytes (bo : ByteOrder) (self : FogPad) (state : IBStream) :
    getState bo self state =
      (kResultOk, { state with bytes := state.bytes ++ specSave self.model }) := by
  simp only [getState, IBStream.writeFloat, memoryBytes_swap, specSave,
    ParameterModel.savedOrder, Float32.littleEndianBytes, List.flatMap_cons, List.flatMap_nil,
    List.append_assoc, List.cons_append, List.nil_append, List.append_nil]

/-- A read with four bytes left at the cursor succeeds with those bytes. -/
theorem IBStream.readFloat_of_le (state : IBStream) (bo : ByteOrder)
    (h : state.cursor + 4 ≤ state.bytes.length) :
    state.readFloat bo =
      some (ofMemoryBytes bo (state.bytes.getD state.cursor 0)
          (state.bytes.getD (state.cursor + 1) 0) (state.bytes.getD (state.cursor + 2) 0)
          (state.bytes.getD (state.cursor + 3) 0),
        { state with cursor := state.cursor + 4 }) := by
  unfold IBStream.readFloat
  have h0 : state.cursor < state.bytes.length := by omega
  have h1 : state.cursor + 1 < state.bytes.length := by omega
  have h2 : state.cursor + 2 < state.bytes.length := by omega
  have h3 : state.cursor + 3 < state.bytes.length := by omega
  rw [List.drop_eq_getElem_cons h0, List.drop_eq_getElem_cons h1,
    List.drop_eq_getElem_cons h2, List.drop_eq_getElem_cons h3]
  simp only [List.getD_eq_getElem?_getD, List.getElem?_eq_getElem h0,
    List.getElem?_eq_getElem h1, List.getElem?_eq_getElem h2, List.getElem?_eq_getElem h3,
    Option.getD_some]

theorem getD_drop (bytes : List Byte) (c j : Nat) :
    (bytes.drop c).getD j 0 = bytes.getD (c + j) 0 := by
  simp [List.getD_eq_getElem?_getD, List.getElem?_drop]

/-- With 64 bytes left in the stream, `setState` succeeds: the model becomes
the one the specification decodes from those bytes and is pushed once into
the chain. -/
theorem setState_of_enough (bo : ByteOrder) (fp : FloatEnv) (prior : FogPad) (state : IBStream)
    (h : 64 ≤ state.bytes.length - state.cursor) :
    setState bo fp prior state =
      (kResultOk,
        syncModel fp { prior with model := specLoad (state.bytes.drop state.cursor) }) := by
  unfold setState
  rw [IBStream.readFloat_of_le _ _ (by omega)]
  simp only []
  rw [IBStream.readFloat_of_le _ _ (by simp only []; omega)]
  simp only []
  rw [IBStream.readFloat_of_le _ _ (by simp only []; omega)]
  simp only []
  rw [IBStream.readFloat_of_le _ _ (by simp only []; omega)]
  simp only []
  rw [IBStream.readFloat_of_le _ _ (by simp only []; omega)]
  simp only []
  rw [IBStream.readFloat_of_le _ _ (by simp only []; omega)]
  simp only []
  rw [IBStream.readFloat_of_le _ _ (by simp only []; omega)]
  simp only []
  rw [IBStream.readFloat_of_le _ _ (by simp only []; omega)]
  simp only []
  rw [IBStream.readFloat_of_le _ _ (by simp only []; omega)]
  simp only []
  rw [IBStream.readFloat_of_le _ _ (by simp only []; omega)]
  simp only []
  rw [IBStream.readFloat_of_le _ _ (by simp only []; omega)]
  simp only []
  rw [IBStream.readFloat_of_le _ _ (by simp only []; omega)]
  simp only []
  rw [IBStream.readFloat_of_le _ _ (by simp only []; omega)]
  simp only []
  rw [IBStream.readFloat_of_le _ _ (by simp only []; omega)]
  simp only []
  rw [IBStream.readFloat_of_le _ _ (by simp only []; omega)]
  simp only []
  rw [IBStream.readFloat_of_le _ _ (by simp only []; omega)]
  simp only []
  simp only [swap_ofMemoryBytes, specLoad, decodeFloatAt, getD_drop, Nat.add_assoc,
    Nat.reduceAdd, Nat.reduceMul, Nat.add_zero]

/-- Decoding the layout of a model gives the model. -/
theorem specLoad_specSave (m : ParameterModel) : specLoad (specSave m) = m := by
  simp [specLoad, specSave, decodeFloatAt, ParameterModel.savedOrder,
    Float32.littleEndianBytes, Float32.ofBytes_byte]

theorem specSave_length (m : ParameterModel) : (specSave m).length = 64 := by
  simp [specSave, ParameterModel.savedOrder, Float32.littleEndianBytes]

/-- Loading a layout of the specification gives its model, under either byte
order. -/
theorem setState_specSave (bo : ByteOrder) (fp : FloatEnv) (prior : FogPad)
    (m : ParameterModel) :
    setState bo fp prior ⟨specSave m, 0⟩ =
      (kResultOk, syncModel fp { prior with model := m }) := by
  rw [setState_of_enough bo fp prior ⟨specSave m, 0⟩ (by simp [specSave_length])]
  simp [specLoad_specSave]

/-! ## C3: truncated state -/

theorem memoryBytes_length (bo : ByteOrder) (x : Float32) : (memoryBytes bo x).length = 4 := by
  cases bo <;> rfl

/-- On any stream, a read with four bytes left at the cursor answers
`kResultOk` and fills the variable with those bytes. -/
theorem IBStream.readInto_of_le (state : IBStream) (shortReadResult : Int) (bo : ByteOrder)
    (x : Float32) (h : state.cursor + 4 ≤ state.bytes.length) :
    state.readInto shortReadResult bo x =
      (kResultOk,
        ofMemoryBytes bo (state.bytes.getD state.cursor 0)
          (state.bytes.getD (state.cursor + 1) 0) (state.bytes.getD (state.cursor + 2) 0)
          (state.bytes.getD (state.cursor + 3) 0),
        { state with cursor := state.cursor + 4 }) := by
  have h0 : state.cursor < state.bytes.length := by omega
  have h1 : state.cursor + 1 < state.bytes.length := by omega
  have h2 : state.cursor + 2 < state.bytes.length := by omega
  have h3 : state.cursor + 3 < state.bytes.length := by omega
  have hlen : 4 ≤ (state.bytes.drop state.cursor).length := by
    rw [List.length_drop]; omega
  unfold IBStream.readInto IBStream.read
  simp only [if_pos hlen]
  rw [List.drop_eq_getElem_cons h0, List.drop_eq_getElem_cons h1,
    List.drop_eq_getElem_cons h2, List.drop_eq_getElem_cons h3]
  have hd : (memoryBytes bo x).drop 4 = [] := by cases bo <;> rfl
  simp only [List.take_succ_cons, List.take_zero, List.length_cons, List.length_nil,
    Nat.zero_add, Nat.reduceAdd, hd, List.append_nil, List.getD_eq_getElem?_getD,
    List.getElem?_eq_getElem h0, List.getElem?_eq_getElem h1, List.getElem?_eq_getElem h2,
    List.getElem?_eq_getElem h3, Option.getD_some]

/-- On any stream, a read with fewer than four bytes left answers the
stream's code for a short read. -/
theorem IBStream.readInto_fst_of_short (state : IBStream) (shortReadResult : Int)
    (bo : ByteOrder) (x : Float32) (h : state.bytes.length < state.cursor + 4) :
    (state.readInto shortReadResult bo x).1 = shortReadResult := by
  have hlen : ¬ 4 ≤ (state.bytes.drop state.cursor).length := by
    rw [List.length_drop]; omega
  unfold IBStream.readInto IBStream.read
  simp only [if_neg hlen]
  split <;> rfl

/-- On any stream, the checked read with four bytes left at the cursor goes
on, the variable filled with those bytes. -/
theorem IBStream.readChecked_of_le (state : IBStream) (shortReadResult : Int) (bo : ByteOrder)
    (x : Float32) (h : state.cursor + 4 ≤ state.bytes.length) :
    state.readChecked shortReadResult bo x =
      some (ofMemoryBytes bo (state.bytes.getD state.cursor 0)
          (state.bytes.getD (state.cursor + 1) 0) (state.bytes.getD (state.cursor + 2) 0)
          (state.bytes.getD (state.cursor + 3) 0),
        { state with cursor := state.cursor + 4 }) := by
  unfold IBStream.readChecked
  rw [IBStream.readInto_of_le state shortReadResult bo x h]
  simp

/-- On a stream that counts a short read as a failure, a checked read that
goes on found four bytes at the cursor and moved past them. -/
theorem IBStream.readChecked_some_of_failing {state state' : IBStream}
    {shortReadResult : Int} {bo : ByteOrder} {x y : Float32}
    (hfail : shortReadResult ≠ kResultOk)
    (h : state.readChecked shortReadResult bo x = some (y, state')) :
    state'.bytes.length = state.bytes.length ∧ state'.cursor = state.cursor + 4 ∧
      state.cursor + 4 ≤ state.bytes.length := by
  by_cases hle : state.cursor + 4 ≤ state.bytes.length
  · rw [IBStream.readChecked_of_le state shortReadResult bo x hle] at h
    simp only [Option.some.injEq, Prod.mk.injEq] at h
    obtain ⟨-, rfl⟩ := h
    exact ⟨rfl, rfl, hle⟩
  · exfalso
    have hs := IBStream.readInto_fst_of_short state shortReadResult bo x (by omega)
    unfold IBStream.readChecked at h
    split at h
    rename_i result v s heq
    rw [heq] at hs
    simp only at hs
    subst hs
    simp [hfail] at h

/-- With 64 bytes left, `setState` on a stream of any host does what it does
on the stream whose read fails on missing bytes: it loads the decoded
model. -/
theorem setState_anyStream_of_enough (shortReadResult : Int) (bo : ByteOrder) (fp : FloatEnv)
    (prior : FogPad) (state : IBStream) (h : 64 ≤ state.bytes.length - state.cursor) :
    setState_anyStream shortReadResult bo fp prior state =
      (kResultOk,
        syncModel fp { prior with model := specLoad (state.bytes.drop state.cursor) }) := by
  unfold setState_anyStream
  rw [IBStream.readChecked_of_le _ _ _ _ (by omega)]
  simp only []
  rw [IBStream.readChecked_of_le _ _ _ _ (by simp only []; omega)]
  simp only []
  rw [IBStream.readChecked_of_le _ _ _ _ (by simp only []; omega)]
  simp only []
  rw [IBStream.readChecked_of_le _ _ _ _ (by simp only []; omega)]
  simp only []
  rw [IBStream.readChecked_of_le _ _ _ _ (by simp only []; omega)]
  simp only []
  rw [IBStream.readChecked_of_le _ _ _ _ (by simp only []; omega)]
  simp only []
  rw [IBStream.readChecked_of_le _ _ _ _ (by simp only []; omega)]
  simp only []
  rw [IBStream.readChecked_of_le _ _ _ _ (by simp only []; omega)]
  simp only []
  rw [IBStream.readChecked_of_le _ _ _ _ (by simp only []; omega)]
  simp only []
  rw [IBStream.readChecked_of_le _ _ _ _ (by simp only []; omega)]
  simp only []
  rw [IBStream.readChecked_of_le _ _ _ _ (by simp only []; omega)]
  simp only []
  rw [IBStream.readChecked_of_le _ _ _ _ (by simp only []; omega)]
  simp only []
  rw [IBStream.readChecked_of_le _ _ _ _ (by simp only []; omega)]
  simp only []
  rw [IBStream.readChecked_of_le _ _ _ _ (by simp only []; omega)]
  simp only []
  rw [IBStream.readChecked_of_le _ _ _ _ (by simp only []; omega)]
  simp only []
  rw [IBStream.readChecked_of_le _ _ _ _ (by simp only []; omega)]
  simp only []
  simp only [swap_ofMemoryBytes, specLoad, decodeFloatAt, getD_drop, Nat.add_assoc,
    Nat.reduceAdd, Nat.reduceMul, Nat.add_zero]

/-- On a stream that counts a short read as a failure, a state of fewer than
64 bytes is refused and the plugin is as it was. -/
theorem setState_anyStream_of_short (shortReadResult : Int) (bo : ByteOrder) (fp : FloatEnv)
    (self : FogPad) (state : IBStream) (hfail : shortReadResult ≠ kResultOk)
    (hshort : state.bytes.length - state.cursor < 64) :
    setState_anyStream shortReadResult bo fp self state = (kResultFalse, self) := by
  unfold setState_anyStream
  split
  · rfl
  rename_i x0 s0 h0
  have e0 := IBStream.readChecked_some_of_failing hfail h0
  split
  · rfl
  rename_i x1 s1 h1
  have e1 := IBStream.readChecked_some_of_failing hfail h1
  split
  · rfl
  rename_i x2 s2 h2
  have e2 := IBStream.readChecked_some_of_failing hfail h2
  split
  · rfl
  rename_i x3 s3 h3
  have e3 := IBStream.readChecked_some_of_failing hfail h3
  split
  · rfl
  rename_i x4 s4 h4
  have e4 := IBStream.readChecked_some_of_failing hfail h4
  split
  · rfl
  rename_i x5 s5 h5
  have e5 := IBStream.readChecked_some_of_failing hfail h5
  split
  · rfl
  rename_i x6 s6 h6
  have e6 := IBStream.readChecked_some_of_failing hfail h6
  split
  · rfl
  rename_i x7 s7 h7
  have e7 := IBStream.readChecked_some_of_failing hfail h7
  split
  · rfl
  rename_i x8 s8 h8
  have e8 := IBStream.readChecked_some_of_failing hfail h8
  split
  · rfl
  rename_i x9 s9 h9
  have e9 := IBStream.readChecked_some_of_failing hfail h9
  split
  · rfl
  rename_i x10 s10 h10
  have e10 := IBStream.readChecked_some_of_failing hfail h10
  split
  · rfl
  rename_i x11 s11 h11
  have e11 := IBStream.readChecked_some_of_failing hfail h11
  split
  · rfl
  rename_i x12 s12 h12
  have e12 := IBStream.readChecked_some_of_failing hfail h12
  split
  · rfl
  rename_i x13 s13 h13
  have e13 := IBStream.readChecked_some_of_failing hfail h13
  split
  · rfl
  rename_i x14 s14 h14
  have e14 := IBStream.readChecked_some_of_failing hfail h14
  split
  · rfl
  rename_i x15 s15 h15
  have e15 := IBStream.readChecked_some_of_failing hfail h15
  exfalso
  omega

/-- On a stream that counts a short read as a failure, `setState` on a stream
of any host is `setState` on the stream whose read fails on missing bytes. -/
theorem setState_anyStream_eq_setState (shortReadResult : Int) (bo : ByteOrder)
    (fp : FloatEnv) (self : FogPad) (state : IBStream) (hfail : shortReadResult ≠ kResultOk) :
    setState_anyStream shortReadResult bo fp self state = setState bo fp self state := by
  by_cases h : 64 ≤ state.bytes.length - state.cursor
  · rw [setState_anyStream_of_enough shortReadResult bo fp self state h,
      setState_of_enough bo fp self state h]
  · rw [setState_anyStream_of_short shortReadResult bo fp self state hfail (by omega),
      setState_of_short bo fp self state (by omega)]

/-- Claim C11 (saved layout).  Under either byte order `getState` writes
exactly 64 bytes, the `i`-th group of four being the little-endian 32-bit
float of the `i`-th member in the order delay time, delay host-sync, delay
feedback, delay mix, bit resolution, bit-resolution chain, bit-resolution LFO,
bit-resolution LFO depth, decimator, decimator chain, decimator LFO, filter
chain, filter cutoff, filter resonance, filter LFO, filter LFO depth
(`savedOrder`); and `setState` reads in that order: from the layout of any
model `m` it loads exactly `m`. -/
theorem getState_layout (bo : ByteOrder) (fp : FloatEnv) (self prior : FogPad) :
    (getState bo self ⟨[], 0⟩).2.bytes.length = 64 ∧
    (∀ i : Fin 16, ((getState bo self ⟨[], 0⟩).2.bytes.drop (4 * i.val)).take 4 =
      (self.model.savedOrder.getD i.val f0).littleEndianBytes) ∧
    (getState bo self ⟨[], 0⟩).2.bytes = specSave self.model ∧
    ∀ m : ParameterModel,
      setState bo fp prior ⟨specSave m, 0⟩ =
        (kResultOk, syncModel fp { prior with model := m }) := by
  rw [getState_bytes]
  refine ⟨by simp [specSave_length], ?_, by simp, fun m => setState_specSave bo fp prior m⟩
  intro i
  fin_cases i <;>
    simp [specSave, ParameterModel.savedOrder, Float32.littleEndianBytes]

/-! ## C12: byte order -/

/-- Claim C12 (byte-order portability).  A big-endian build writes the same
bytes as a little-endian build, each float in little-endian order; so what
a build of one byte order saved, a build of either byte order loads to the
saved model.  On a little-endian build the swap step changes nothing, on a
big-endian build it reverses the four bytes of the float. -/
theorem getState_byte_order_portable (fp : FloatEnv) (self prior : FogPad) :
    (getState ByteOrder.kBigEndian self ⟨[], 0⟩).2.bytes =
      (getState ByteOrder.kLittleEndian self ⟨[], 0⟩).2.bytes ∧
    (getState ByteOrder.kLittleEndian self ⟨[], 0⟩).2.bytes =
      self.model.savedOrder.flatMap Float32.littleEndianBytes ∧
    (∀ saver loader : ByteOrder,
      setState loader fp prior ⟨(getState saver self ⟨[], 0⟩).2.bytes, 0⟩ =
        (kResultOk, syncModel fp { prior with model := self.model })) ∧
    (∀ f : Float32, swapIfBigEndian ByteOrder.kLittleEndian f = f) ∧
    (∀ f : Float32, (swapIfBigEndian ByteOrder.kBigEndian f).littleEndianBytes =
      f.littleEndianBytes.reverse) := by
  refine ⟨?_, ?_, ?_, fun f => rfl, ?_⟩
  · rw [getState_bytes, getState_bytes]
  · rw [getState_bytes]; simp [specSave]
  · intro saver loader
    rw [getState_bytes]
    simpa using setState_specSave loader fp prior self.model
  · intro f
    obtain ⟨g0, g1, g2, g3⟩ := Float32.byte_ofBytes (f.byte 3) (f.byte 2) (f.byte 1) (f.byte 0)
    simp [swapIfBigEndian, SWAP_32, memoryBytes, ofMemoryBytes, Float32.littleEndianBytes,
      g0, g1, g2, g3]

/-! ## The switch as a table -/

/-- The lookup at index `numPoints - 1` finds the last point, if there is one. -/
theorem getPoint_eq_getLast? (q : ParamValueQueue) :
    q.getPoint (q.getPointCount - 1) = q.points.getLast? := by
  obtain ⟨id, points⟩ := q
  rcases List.eq_nil_or_concat points with h | ⟨earlier, last, h⟩
  · subst h
    simp [ParamValueQueue.getPoint, ParamValueQueue.getPointCount]
  · subst h
    simp [ParamValueQueue.getPoint, ParamValueQueue.getPointCount]

/-- The switch of `FogPad::process` assigns the last point's value to the
member that `fieldOf` names, and does nothing else. -/
theorem process_switch_eq_set (ids : ParamIds) (fp : FloatEnv) (m : ParameterModel)
    (q : ParamValueQueue) :
    process_switch ids fp m q =
      match ids.fieldOf q.getParameterId, q.points.getLast? with
      | some fld, some p => m.set fld (fp.toFloat p.value)
      | _, _ => m := by
  rw [← getPoint_eq_getLast?]
  unfold process_switch ParamIds.fieldOf
  simp only
  generalize q.getPoint (q.getPointCount - 1) = r
  by_cases h0 : q.getParameterId = ids.kDelayTimeId
  · simp only [if_pos h0]; cases r <;> rfl
  by_cases h1 : q.getParameterId = ids.kDelayHostSyncId
  · simp only [if_neg h0, if_pos h1]; cases r <;> rfl
  by_cases h2 : q.getParameterId = ids.kDelayFeedbackId
  · simp only [if_neg h0, if_neg h1, if_pos h2]; cases r <;> rfl
  by_cases h3 : q.getParameterId = ids.kDelayMixId
  · simp only [if_neg h0, if_neg h1, if_neg h2, if_pos h3]; cases r <;> rfl
  by_cases h4 : q.getParameterId = ids.kBitResolutionId
  · simp only [if_neg h0, if_neg h1, if_neg h2, if_neg h3, if_pos h4]; cases r <;> rfl
  by_cases h5 : q.getParameterId = ids.kBitResolutionChainId
  · simp only [if_neg h0, if_neg h1, if_neg h2, if_neg h3, if_neg h4, if_pos h5]; cases r <;> rfl
  by_cases h6 : q.getParameterId = ids.kLFOBitResolutionId
  · simp only [if_neg h0, if_neg h1, if_neg h2, if_neg h3, if_neg h4, if_neg h5, if_pos h6]; cases r <;> rfl
  by_cases h7 : q.getParameterId = ids.kLFOBitResolutionDepthId
  · simp only [if_neg h0, if_neg h1, if_neg h2, if_neg h3, if_neg h4, if_neg h5, if_neg h6, if_pos h7]; cases r <;> rfl
  by_cases h8 : q.getParameterId = ids.kDecimatorId
  · simp only [if_neg h0, if_neg h1, if_neg h2, if_neg h3, if_neg h4, if_neg h5, if_neg h6, if_neg h7, if_pos h8]; cases r <;> rfl
  by_cases h9 : q.getParameterId = ids.kDecimatorChainId
  · simp only [if_neg h0, if_neg h1, if_neg h2, if_neg h3, if_neg h4, if_neg h5, if_neg h6, if_neg h7, if_neg h8, if_pos h9]; cases r <;> rfl
  by_cases h10 : q.getParameterId = ids.kLFODecimatorId
  · simp only [if_neg h0, if_neg h1, if_neg h2, if_neg h3, if_neg h4, if_neg h5, if_neg h6, if_neg h7, if_neg h8, if_neg h9, if_pos h10]; cases r <;> rfl
  by_cases h11 : q.getParameterId = ids.kFilterChainId
  · simp only [if_neg h0, if_neg h1, if_neg h2, if_neg h3, if_neg h4, if_neg h5, if_neg h6, if_neg h7, if_neg h8, if_neg h9, if_neg h10, if_pos h11]; cases r <;> rfl
  by_cases h12 : q.getParameterId = ids.kFilterCutoffId
  · simp only [if_neg h0, if_neg h1, if_neg h2, if_neg h3, if_neg h4, if_neg h5, if_neg h6, if_neg h7, if_neg h8, if_neg h9, if_neg h10, if_neg h11, if_pos h12]; cases r <;> rfl
  by_cases h13 : q.getParameterId = ids.kFilterResonanceId
  · simp only [if_neg h0, if_neg h1, if_neg h2, if_neg h3, if_neg h4, if_neg h5, if_neg h6, if_neg h7, if_neg h8, if_neg h9, if_neg h10, if_neg h11, if_neg h12, if_pos h13]; cases r <;> rfl
  by_cases h14 : q.getParameterId = ids.kLFOFilterId
  · simp only [if_neg h0, if_neg h1, if_neg h2, if_neg h3, if_neg h4, if_neg h5, if_neg h6, if_neg h7, if_neg h8, if_neg h9, if_neg h10, if_neg h11, if_neg h12, if_neg h13, if_pos h14]; cases r <;> rfl
  by_cases h15 : q.getParameterId = ids.kLFOFilterDepthId
  · simp only [if_neg h0, if_neg h1, if_neg h2, if_neg h3, if_neg h4, if_neg h5, if_neg h6, if_neg h7, if_neg h8, if_neg h9, if_neg h10, if_neg h11, if_neg h12, if_neg h13, if_neg h14, if_pos h15]; cases r <;> rfl
  simp only [if_neg h0, if_neg h1, if_neg h2, if_neg h3, if_neg h4, if_neg h5, if_neg h6, if_neg h7, if_neg h8, if_neg h9, if_neg h10, if_neg h11, if_neg h12, if_neg h13, if_neg h14, if_neg h15]

theorem get_set (m : ParameterModel) (fld other : Field) (v : Float32) :
    (m.set fld v).get other = if other = fld then v else m.get other := by
  cases fld <;> cases other <;> rfl

theorem ParameterModel.ext_get {m n : ParameterModel} (h : ∀ fld, m.get fld = n.get fld) :
    m = n := by
  have h0 := h .fDelayTime
  have h1 := h .fDelayHostSync
  have h2 := h .fDelayFeedback
  have h3 := h .fDelayMix
  have h4 := h .fBitResolution
  have h5 := h .fBitResolutionChain
  have h6 := h .fLFOBitResolution
  have h7 := h .fLFOBitResolutionDepth
  have h8 := h .fDecimator
  have h9 := h .fDecimatorChain
  have h10 := h .fLFODecimator
  have h11 := h .fFilterChain
  have h12 := h .fFilterCutoff
  have h13 := h .fFilterResonance
  have h14 := h .fLFOFilter
  have h15 := h .fLFOFilterDepth
  cases m; cases n
  simp only [ParameterModel.get] at h0 h1 h2 h3 h4 h5 h6 h7 h8 h9 h10 h11 h12 h13 h14 h15
  simp only [ParameterModel.mk.injEq]
  exact ⟨h0, h1, h2, h3, h4, h5, h6, h7, h8, h10, h9, h11, h12, h13, h14, h15⟩

/-- A parameter id with a case in the switch is the label of its member. -/
theorem fieldOf_eq_some (ids : ParamIds) (id : Nat) (fld : Field)
    (h : ids.fieldOf id = some fld) : id = ids.labelOf fld := by
  unfold ParamIds.fieldOf at h
  by_cases h0 : id = ids.kDelayTimeId
  · simp only [if_pos h0] at h; cases h; exact h0
  by_cases h1 : id = ids.kDelayHostSyncId
  · simp only [if_neg h0, if_pos h1] at h; cases h; exact h1
  by_cases h2 : id = ids.kDelayFeedbackId
  · simp only [if_neg h0, if_neg h1, if_pos h2] at h; cases h; exact h2
  by_cases h3 : id = ids.kDelayMixId
  · simp only [if_neg h0, if_neg h1, if_neg h2, if_pos h3] at h; cases h; exact h3
  by_cases h4 : id = ids.kBitResolutionId
  · simp only [if_neg h0, if_neg h1, if_neg h2, if_neg h3, if_pos h4] at h; cases h; exact h4
  by_cases h5 : id = ids.kBitResolutionChainId
  · simp only [if_neg h0, if_neg h1, if_neg h2, if_neg h3, if_neg h4, if_pos h5] at h; cases h; exact h5
  by_cases h6 : id = ids.kLFOBitResolutionId
  · simp only [if_neg h0, if_neg h1, if_neg h2, if_neg h3, if_neg h4, if_neg h5, if_pos h6] at h; cases h; exact h6
  by_cases h7 : id = ids.kLFOBitResolutionDepthId
  · simp only [if_neg h0, if_neg h1, if_neg h2, if_neg h3, if_neg h4, if_neg h5, if_neg h6, if_pos h7] at h; cases h; exact h7
  by_cases h8 : id = ids.kDecimatorId
  · simp only [if_neg h0, if_neg h1, if_neg h2, if_neg h3, if_neg h4, if_neg h5, if_neg h6, if_neg h7, if_pos h8] at h; cases h; exact h8
  by_cases h9 : id = ids.kDecimatorChainId
  · simp only [if_neg h0, if_neg h1, if_neg h2, if_neg h3, if_neg h4, if_neg h5, if_neg h6, if_neg h7, if_neg h8, if_pos h9] at h; cases h; exact h9
  by_cases h10 : id = ids.kLFODecimatorId
  · simp only [if_neg h0, if_neg h1, if_neg h2, if_neg h3, if_neg h4, if_neg h5, if_neg h6, if_neg h7, if_neg h8, if_neg h9, if_pos h10] at h; cases h; exact h10
  by_cases h11 : id = ids.kFilterChainId
  · simp only [if_neg h0, if_neg h1, if_neg h2, if_neg h3, if_neg h4, if_neg h5, if_neg h6, if_neg h7, if_neg h8, if_neg h9, if_neg h10, if_pos h11] at h; cases h; exact h11
  by_cases h12 : id = ids.kFilterCutoffId
  · simp only [if_neg h0, if_neg h1, if_neg h2, if_neg h3, if_neg h4, if_neg h5, if_neg h6, if_neg h7, if_neg h8, if_neg h9, if_neg h10, if_neg h11, if_pos h12] at h; cases h; exact h12
  by_cases h13 : id = ids.kFilterResonanceId
  · simp only [if_neg h0, if_neg h1, if_neg h2, if_neg h3, if_neg h4, if_neg h5, if_neg h6, if_neg h7, if_neg h8, if_neg h9, if_neg h10, if_neg h11, if_neg h12, if_pos h13] at h; cases h; exact h13
  by_cases h14 : id = ids.kLFOFilterId
  · simp only [if_neg h0, if_neg h1, if_neg h2, if_neg h3, if_neg h4, if_neg h5, if_neg h6, if_neg h7, if_neg h8, if_neg h9, if_neg h10, if_neg h11, if_neg h12, if_neg h13, if_pos h14] at h; cases h; exact h14
  by_cases h15 : id = ids.kLFOFilterDepthId
  · simp only [if_neg h0, if_neg h1, if_neg h2, if_neg h3, if_neg h4, if_neg h5, if_neg h6, if_neg h7, if_neg h8, if_neg h9, if_neg h10, if_neg h11, if_neg h12, if_neg h13, if_neg h14, if_pos h15] at h; cases h; exact h15
  simp only [if_neg h0, if_neg h1, if_neg h2, if_neg h3, if_neg h4, if_neg h5, if_neg h6, if_neg h7, if_neg h8, if_neg h9, if_neg h10, if_neg h11, if_neg h12, if_neg h13, if_neg h14, if_neg h15] at h; cases h

/-- An id has a case in the switch exactly when it is one of the sixteen
labels. -/
theorem fieldOf_isSome_iff (ids : ParamIds) (id : Nat) :
    (ids.fieldOf id).isSome = true ↔ id ∈ ids.known := by
  unfold ParamIds.fieldOf ParamIds.known
  simp only [List.mem_cons, List.mem_singleton, List.not_mem_nil, or_false]
  by_cases h0 : id = ids.kDelayTimeId
  · simp only [if_pos h0]; simp [h0]
  by_cases h1 : id = ids.kDelayHostSyncId
  · simp only [if_neg h0, if_pos h1]; simp [h1]
  by_cases h2 : id = ids.kDelayFeedbackId
  · simp only [if_neg h0, if_neg h1, if_pos h2]; simp [h2]
  by_cases h3 : id = ids.kDelayMixId
  · simp only [if_neg h0, if_neg h1, if_neg h2, if_pos h3]; simp [h3]
  by_cases h4 : id = ids.kBitResolutionId
  · simp only [if_neg h0, if_neg h1, if_neg h2, if_neg h3, if_pos h4]; simp [h4]
  by_cases h5 : id = ids.kBitResolutionChainId
  · simp only [if_neg h0, if_neg h1, if_neg h2, if_neg h3, if_neg h4, if_pos h5]; simp [h5]
  by_cases h6 : id = ids.kLFOBitResolutionId
  · simp only [if_neg h0, if_neg h1, if_neg h2, if_neg h3, if_neg h4, if_neg h5, if_pos h6]; simp [h6]
  by_cases h7 : id = ids.kLFOBitResolutionDepthId
  · simp only [if_neg h0, if_neg h1, if_neg h2, if_neg h3, if_neg h4, if_neg h5, if_neg h6, if_pos h7]; simp [h7]
  by_cases h8 : id = ids.kDecimatorId
  · simp only [if_neg h0, if_neg h1, if_neg h2, if_neg h3, if_neg h4, if_neg h5, if_neg h6, if_neg h7, if_pos h8]; simp [h8]
  by_cases h9 : id = ids.kDecimatorChainId
  · simp only [if_neg h0, if_neg h1, if_neg h2, if_neg h3, if_neg h4, if_neg h5, if_neg h6, if_neg h7, if_neg h8, if_pos h9]; simp [h9]
  by_cases h10 : id = ids.kLFODecimatorId
  · simp only [if_neg h0, if_neg h1, if_neg h2, if_neg h3, if_neg h4, if_neg h5, if_neg h6, if_neg h7, if_neg h8, if_neg h9, if_pos h10]; simp [h10]
  by_cases h11 : id = ids.kFilterChainId
  · simp only [if_neg h0, if_neg h1, if_neg h2, if_neg h3, if_neg h4, if_neg h5, if_neg h6, if_neg h7, if_neg h8, if_neg h9, if_neg h10, if_pos h11]; simp [h11]
  by_cases h12 : id = ids.kFilterCutoffId
  · simp only [if_neg h0, if_neg h1, if_neg h2, if_neg h3, if_neg h4, if_neg h5, if_neg h6, if_neg h7, if_neg h8, if_neg h9, if_neg h10, if_neg h11, if_pos h12]; simp [h12]
  by_cases h13 : id = ids.kFilterResonanceId
  · simp only [if_neg h0, if_neg h1, if_neg h2, if_neg h3, if_neg h4, if_neg h5, if_neg h6, if_neg h7, if_neg h8, if_neg h9, if_neg h10, if_neg h11, if_neg h12, if_pos h13]; simp [h13]
  by_cases h14 : id = ids.kLFOFilterId
  · simp only [if_neg h0, if_neg h1, if_neg h2, if_neg h3, if_neg h4, if_neg h5, if_neg h6, if_neg h7, if_neg h8, if_neg h9, if_neg h10, if_neg h11, if_neg h12, if_neg h13, if_pos h14]; simp [h14]
  by_cases h15 : id = ids.kLFOFilterDepthId
  · simp only [if_neg h0, if_neg h1, if_neg h2, if_neg h3, if_neg h4, if_neg h5, if_neg h6, if_neg h7, if_neg h8, if_neg h9, if_neg h10, if_neg h11, if_neg h12, if_neg h13, if_neg h14, if_pos h15]; simp [h15]
  simp only [if_neg h0, if_neg h1, if_neg h2, if_neg h3, if_neg h4, if_neg h5, if_neg h6, if_neg h7, if_neg h8, if_neg h9, if_neg h10, if_neg h11, if_neg h12, if_neg h13, if_neg h14, if_neg h15]; simp [h0, h1, h2, h3, h4, h5, h6, h7, h8, h9, h10, h11, h12, h13, h14, h15]

/-- The model after the parameter loop is `mergeModel` of the model before. -/
theorem foldl_paramQueue_model (ids : ParamIds) (fp : FloatEnv)
    (queues : List (Option ParamValueQueue)) (self : FogPad) :
    (queues.foldl (process_paramQueue ids fp) self).model =
      mergeModel ids fp self.model queues := by
  unfold mergeModel
  induction queues generalizing self with
  | nil => rfl
  | cons q queues ih =>
    rw [List.foldl_cons, List.foldl_cons, ih]
    cases q <;> rfl

theorem process_model_eq_mergeModel (ids : ParamIds) (fp : FloatEnv) (self : FogPad)
    (data : ProcessData) (limiterGR : Float32) :
    (process ids fp self data limiterGR).2.1.model =
      mergeModel ids fp self.model data.paramQueues := by
  rw [process_model, foldl_paramQueue_model]

theorem mergeModel_append (ids : ParamIds) (fp : FloatEnv) (m : ParameterModel)
    (xs ys : List (Option ParamValueQueue)) :
    mergeModel ids fp m (xs ++ ys) = mergeModel ids fp (mergeModel ids fp m xs) ys := by
  simp [mergeModel, List.foldl_append]

theorem mergeModel_cons (ids : ParamIds) (fp : FloatEnv) (m : ParameterModel)
    (q : Option ParamValueQueue) (qs : List (Option ParamValueQueue)) :
    mergeModel ids fp m (q :: qs) = mergeModel ids fp (mergeStep ids fp m q) qs := rfl

/-- One iteration of the loop gives a member a value that depends on the
queue and on that member's old value only. -/
theorem mergeStep_get_congr (ids : ParamIds) (fp : FloatEnv) (m n : ParameterModel)
    (q : Option ParamValueQueue) (fld : Field) (h : m.get fld = n.get fld) :
    (mergeStep ids fp m q).get fld = (mergeStep ids fp n q).get fld := by
  cases q with
  | none => exact h
  | some q =>
    simp only [mergeStep, process_switch_eq_set]
    cases ids.fieldOf q.getParameterId with
    | none => exact h
    | some target =>
      cases q.points.getLast? with
      | none => exact h
      | some p => simp only [get_set, h]

/-- A queue with another id than the one of member `fld` leaves `fld` alone. -/
theorem mergeStep_get_of_not_targets (ids : ParamIds) (fp : FloatEnv) (m : ParameterModel)
    (q : Option ParamValueQueue) (id : Nat) (fld : Field) (hid : ids.fieldOf id = some fld)
    (hq : targets id q = false) :
    (mergeStep ids fp m q).get fld = m.get fld := by
  cases q with
  | none => rfl
  | some q =>
    simp only [targets, decide_eq_false_iff_not] at hq
    simp only [mergeStep, process_switch_eq_set]
    cases hf : ids.fieldOf q.getParameterId with
    | none => rfl
    | some target =>
      cases q.points.getLast? with
      | none => rfl
      | some p =>
        have hne : fld ≠ target := by
          intro heq
          subst heq
          exact hq ((fieldOf_eq_some ids _ _ hf).trans (fieldOf_eq_some ids _ _ hid).symm)
        simp only [get_set, if_neg hne]

/-- A queue with the id of member `fld` leaves every other member alone. -/
theorem mergeStep_get_of_targets (ids : ParamIds) (fp : FloatEnv) (m : ParameterModel)
    (q : Option ParamValueQueue) (id : Nat) (fld other : Field)
    (hid : ids.fieldOf id = some fld) (hq : targets id q = true) (hne : other ≠ fld) :
    (mergeStep ids fp m q).get other = m.get other := by
  cases q with
  | none => rfl
  | some q =>
    simp only [targets, decide_eq_true_eq] at hq
    simp only [mergeStep, process_switch_eq_set, hq, hid]
    cases q.points.getLast? with
    | none => rfl
    | some p => simp only [get_set, if_neg hne]

/-- A queue without points changes nothing. -/
theorem process_switch_empty (ids : ParamIds) (fp : FloatEnv) (m : ParameterModel) (id : Nat) :
    process_switch ids fp m ⟨id, []⟩ = m := by
  rw [process_switch_eq_set]
  cases ids.fieldOf (ParamValueQueue.mk id []).getParameterId <;> rfl

/-- A queue with points for a known id stores its last point. -/
theorem mergeStep_get_last (ids : ParamIds) (fp : FloatEnv) (m : ParameterModel) (id : Nat)
    (fld : Field) (earlier : List Point) (last : Point) (hid : ids.fieldOf id = some fld) :
    (mergeStep ids fp m (some ⟨id, earlier ++ [last]⟩)).get fld = fp.toFloat last.value := by
  have hl : (earlier ++ [last]).getLast? = some last := by simp
  simp only [mergeStep, process_switch_eq_set, ParamValueQueue.getParameterId, hid, hl,
    get_set, if_true]

/-! ## C13: the unit interval -/

theorem mergeStep_empty (ids : ParamIds) (fp : FloatEnv) (m : ParameterModel) (id : Nat) :
    mergeStep ids fp m (some ⟨id, []⟩) = m :=
  process_switch_empty ids fp m id

/-- Claim C14 (empty queue no-op).  For a queue without points, whatever its
parameter id, known or not: the lookup at index `numPoints - 1 = -1` fails,
the switch returns the model as it was, and the model after
`FogPad::process` is the one that the batch without that queue gives. -/
theorem process_empty_queue_noop (ids : ParamIds) (fp : FloatEnv) (self : FogPad)
    (data : ProcessData) (limiterGR : Float32) (id : Nat)
    (before after : List (Option ParamValueQueue))
    (hq : data.inputParameterChanges = some (before ++ some ⟨id, []⟩ :: after)) :
    (ParamValueQueue.mk id []).getPointCount - 1 = -1 ∧
    (ParamValueQueue.mk id []).getPoint ((ParamValueQueue.mk id []).getPointCount - 1) = none ∧
    (∀ m : ParameterModel, process_switch ids fp m ⟨id, []⟩ = m) ∧
    (process ids fp self data limiterGR).2.1.model =
      (process ids fp self { data with inputParameterChanges := some (before ++ after) }
        limiterGR).2.1.model := by
  refine ⟨rfl, rfl, fun m => process_switch_empty ids fp m id, ?_⟩
  simp only [process_model_eq_mergeModel, ProcessData.paramQueues, hq, mergeModel_append,
    mergeModel_cons, mergeStep_empty]

/-- Claim C14, at a block whose only queue targets `kDelayMixId` and has no
points. -/
theorem process_empty_queue_noop_witness :
    (process consecutiveIds sampleFloatEnv sampleFogPad
      (sampleBlock (some [some ⟨3, []⟩]) none) f0).2.1.model =
    (process consecutiveIds sampleFloatEnv sampleFogPad
      (sampleBlock (some []) none) f0).2.1.model :=
  (process_empty_queue_noop consecutiveIds sampleFloatEnv sampleFogPad
    (sampleBlock (some [some ⟨3, []⟩]) none) f0 3 [] [] rfl).2.2.2

/-! ## C15: the last queue for an id wins -/

/-- With pairwise different labels, every member is the one the switch
assigns to under its own label. -/
theorem fieldOf_labelOf (ids : ParamIds) (hd : ids.Distinct) (fld : Field) :
    ids.fieldOf (ids.labelOf fld) = some fld := by
  simp only [ParamIds.Distinct, ParamIds.known, List.nodup_cons, List.mem_cons, not_or,
    List.mem_singleton, List.not_mem_nil, List.nodup_nil, not_false_eq_true, and_true] at hd
  cases fld <;> simp [ParamIds.fieldOf, ParamIds.labelOf, hd, eq_comm]

/-- Queues for the id of member `fld` that come first in a batch do not show
in the other members. -/
theorem mergeModel_filter_agree (ids : ParamIds) (fp : FloatEnv) (id : Nat) (fld : Field)
    (hid : ids.fieldOf id = some fld) (queues : List (Option ParamValueQueue))
    (m n : ParameterModel) (hmn : ∀ other, other ≠ fld → m.get other = n.get other) :
    ∀ other, other ≠ fld →
      (mergeModel ids fp m queues).get other =
        (mergeModel ids fp n (queues.filter (fun q => !targets id q))).get other := by
  induction queues generalizing m n with
  | nil => exact hmn
  | cons q queues ih =>
    cases ht : targets id q with
    | true =>
      rw [mergeModel_cons, List.filter_cons_of_neg (by simp [ht])]
      apply ih
      intro other hne
      rw [mergeStep_get_of_targets ids fp m q id fld other hid ht hne]
      exact hmn other hne
    | false =>
      rw [mergeModel_cons, List.filter_cons_of_pos (by simp [ht]), mergeModel_cons]
      apply ih
      intro other hne
      exact mergeStep_get_congr ids fp m n q other (hmn other hne)

/-- Later queues that either carry another id or have no points leave member
`fld` alone. -/
theorem mergeModel_get_of_no_later (ids : ParamIds) (fp : FloatEnv) (id : Nat) (fld : Field)
    (hid : ids.fieldOf id = some fld) (queues : List (Option ParamValueQueue))
    (m : ParameterModel)
    (hlater : ∀ q, some q ∈ queues → q.getParameterId = id → q.points = []) :
    (mergeModel ids fp m queues).get fld = m.get fld := by
  induction queues generalizing m with
  | nil => rfl
  | cons q queues ih =>
    rw [mergeModel_cons, ih _ (fun q' hq' => hlater q' (List.mem_cons_of_mem _ hq'))]
    cases ht : targets id q with
    | false => exact mergeStep_get_of_not_targets ids fp m q id fld hid ht
    | true =>
      cases q with
      | none => rfl
      | some q' =>
        simp only [targets, decide_eq_true_eq] at ht
        have he := hlater q' (List.mem_cons_self _ _) ht
        obtain ⟨qid, pts⟩ := q'
        simp only at he
        subst he
        rw [mergeStep_empty]

/-- Claim C15 (last-event-wins).  Let a queue with points `earlier ++ [last]`
for a known id (one with a case in the switch, assigning to member `fld`) be
the last queue with points for that id in the batch: the queues after it
either carry another id or have no points.  Then after `FogPad::process`
member `fld` holds `( float ) last.value`, and the whole model is the one
that the batch gives when all queues for that id before this one are taken
out of it. -/
theorem process_last_event_wins (ids : ParamIds) (fp : FloatEnv) (self : FogPad)
    (data : ProcessData) (limiterGR : Float32) (id : Nat) (fld : Field)
    (before after : List (Option ParamValueQueue)) (earlier : List Point) (last : Point)
    (hid : ids.fieldOf id = some fld)
    (hq : data.inputParameterChanges =
      some (before ++ some ⟨id, earlier ++ [last]⟩ :: after))
    (hlater : ∀ q, some q ∈ after → q.getParameterId = id → q.points = []) :
    (process ids fp self data limiterGR).2.1.model.get fld = fp.toFloat last.value ∧
    (process ids fp self data limiterGR).2.1.model =
      (process ids fp self
        { data with
          inputParameterChanges := some (before.filter (fun q => !targets id q) ++
                                     some ⟨id, earlier ++ [last]⟩ :: after) }
        limiterGR).2.1.model := by
  simp only [process_model_eq_mergeModel, ProcessData.paramQueues, hq, mergeModel_append,
    mergeModel_cons]
  constructor
  · rw [mergeModel_get_of_no_later ids fp id fld hid after _ hlater]
    exact mergeStep_get_last ids fp _ id fld earlier last hid
  · congr 1
    apply ParameterModel.ext_get
    intro other
    by_cases hne : other = fld
    · subst hne
      rw [mergeStep_get_last ids fp _ id other earlier last hid,
        mergeStep_get_last ids fp _ id other earlier last hid]
    · apply mergeStep_get_congr
      exact mergeModel_filter_agree ids fp id fld hid before self.model self.model
        (fun _ _ => rfl) other hne

/-- Claim C15, at a block with two queues for `kDelayMixId` and one for
another id after them. -/
theorem process_last_event_wins_witness :
    (process consecutiveIds sampleFloatEnv sampleFogPad
      (sampleBlock (some [some ⟨3, [⟨0, d2⟩]⟩, some ⟨3, [⟨0, d0_5⟩, ⟨9, d0⟩]⟩,
        some ⟨5, [⟨0, d0_25⟩]⟩]) none) f0).2.1.model.get Field.fDelayMix =
      sampleFloatEnv.toFloat d0 :=
  (process_last_event_wins consecutiveIds sampleFloatEnv sampleFogPad
    (sampleBlock (some [some ⟨3, [⟨0, d2⟩]⟩, some ⟨3, [⟨0, d0_5⟩, ⟨9, d0⟩]⟩,
      some ⟨5, [⟨0, d0_25⟩]⟩]) none) f0 3 Field.fDelayMix
    [some ⟨3, [⟨0, d2⟩]⟩] [some ⟨5, [⟨0, d0_25⟩]⟩] [⟨0, d0_5⟩] ⟨9, d0⟩ rfl rfl
    (by
      intro q hq hid
      simp only [List.mem_singleton, Option.some.injEq] at hq
      subst hq
      exact absurd hid (by decide))).1

/-! ## C16, C17: processing setup -/

/-- The chain after `setupProcessing`: a fresh `ReverbProcess( 6 )` into which
the model has been pushed; the model itself is as before. -/
theorem setupProcessing_chain (fp : FloatEnv) (self : FogPad) (newSetup : ProcessSetup) :
    (setupProcessing fp self newSetup).2.1.reverbProcess =
      (syncModel fp { self with reverbProcess := ReverbProcess.new 6 }).reverbProcess ∧
    (setupProcessing fp self newSetup).2.1.model = self.model ∧
    (setupProcessing fp self newSetup).2.1.trace =
      self.trace ++ [Effect.syncModel self.model] := by
  unfold setupProcessing AudioEffect_setupProcessing
  simp only
  split <;> exact ⟨rfl, rfl, rfl⟩

/-- Claim C16, the code at the failing input: whatever the buses are, two
channels (right after `initialize`) or one (after a mono proposal was
accepted), the chain that `setupProcessing` constructs is made for 6
channels. -/
theorem setupProcessing_six_channels :
    sampleFogPad.isStereoStereo = true ∧
    (setupProcessing sampleFloatEnv sampleFogPad
      sampleSetup).2.1.reverbProcess.amountOfChannels = 6 ∧
    monoFogPad.isMonoMono = true ∧
    (setupProcessing sampleFloatEnv monoFogPad
      sampleSetup).2.1.reverbProcess.amountOfChannels = 6 := by
  decide

/-- Claim C17 (reconfiguration re-sync).  `setupProcessing` leaves the model
as it is and runs `syncModel` once, on the chain it has just constructed:
every parameter of the new chain that `syncModel` writes holds the value
derived from the current model, none is left at the chain's default, and the
trace is longer by that one run. -/
theorem setupProcessing_resync (fp : FloatEnv) (self : FogPad) (newSetup : ProcessSetup) :
    (setupProcessing fp self newSetup).2.1.model = self.model ∧
    (setupProcessing fp self newSetup).2.1.reverbProcess =
      (syncModel fp { self with reverbProcess := ReverbProcess.new 6 }).reverbProcess ∧
    (setupProcessing fp self newSetup).2.1.reverbProcess =
      { amountOfChannels := 6
        syncDelayToHost := some (Calc.toBool self.model.fDelayHostSync)
        setDelayTime := some self.model.fDelayTime
        setDelayFeedback := some self.model.fDelayFeedback
        setDelayMix := some self.model.fDelayMix
        bitCrusherPostMix := some (Calc.toBool self.model.fBitResolutionChain)
        decimatorPostMix := some (Calc.toBool self.model.fDecimatorChain)
        filterPostMix := some (Calc.toBool self.model.fFilterChain)
        bitCrusher_setAmount := some self.model.fBitResolution
        bitCrusher_setLFO :=
          some (self.model.fLFOBitResolution, self.model.fLFOBitResolutionDepth)
        decimator_setBits := some (fp.toInt (fp.mul self.model.fDecimator f32))
        decimator_setRate := some self.model.fLFODecimator
        filter_updateProperties :=
          some (self.model.fFilterCutoff, self.model.fFilterResonance,
            self.model.fLFOFilter, self.model.fLFOFilterDepth) } ∧
    (setupProcessing fp self newSetup).2.1.trace =
      self.trace ++ [Effect.syncModel self.model] := by
  obtain ⟨h1, h2, h3⟩ := setupProcessing_chain fp self newSetup
  refine ⟨h2, h1, ?_, h3⟩
  rw [h1]
  rfl

/-! ## C18: a successful load -/

/-- Claim C18 (successful load replaces the model).  When at least 64 bytes
are left in the stream, `setState` answers `kResultOk`; the model afterwards
is the one decoded from those bytes, group `i` giving member `i` of the saved
order, whatever the model was before; and `syncModel` has run exactly once,
on the new model: the plugin afterwards is `syncModel` of the prior plugin
with the decoded model, the trace is longer by that one run. -/
theorem setState_replaces_model (bo : ByteOrder) (fp : FloatEnv) (prior : FogPad)
    (state : IBStream) (h : 64 ≤ state.bytes.length - state.cursor) :
    (setState bo fp prior state).1 = kResultOk ∧
    (setState bo fp prior state).2.model = specLoad (state.bytes.drop state.cursor) ∧
    (setState bo fp prior state).2 =
      syncModel fp { prior with model := specLoad (state.bytes.drop state.cursor) } ∧
    (setState bo fp prior state).2.trace =
      prior.trace ++ [Effect.syncModel (specLoad (state.bytes.drop state.cursor))] := by
  rw [setState_of_enough bo fp prior state h]
  exact ⟨rfl, rfl, rfl, rfl⟩

/-- Claim C18, at a concrete stream: the 64 bytes of the layout of
`sampleModel`, loaded by a big-endian build over the constructor's model. -/
theorem setState_replaces_model_witness :
    (setState ByteOrder.kBigEndian sampleFloatEnv sampleFogPad
      ⟨specSave sampleModel, 0⟩).2.model = specLoad (specSave sampleModel) :=
  (setState_replaces_model ByteOrder.kBigEndian sampleFloatEnv sampleFogPad
    ⟨specSave sampleModel, 0⟩ (by decide)).2.1

/-! ## C19: sample sizes -/

/-- Claim C19 (precision capability).  `canProcessSampleSize` answers
`kResultTrue` for `kSample32` and for `kSample64` and `kResultFalse` for every
other symbolic sample size; the two answers differ, so it answers
`kResultTrue` exactly for the two supported sizes. -/
theorem canProcessSampleSize_exact (symbolicSampleSize : Int) :
    canProcessSampleSize kSample32 = kResultTrue ∧
    canProcessSampleSize kSample64 = kResultTrue ∧
    canProcessSampleSize symbolicSampleSize =
      (if symbolicSampleSize = kSample32 ∨ symbolicSampleSize = kSample64 then kResultTrue
       else kResultFalse) ∧
    (canProcessSampleSize symbolicSampleSize = kResultTrue ↔
      symbolicSampleSize = kSample32 ∨ symbolicSampleSize = kSample64) := by
  refine ⟨rfl, rfl, ?_, ?_⟩
  · unfold canProcessSampleSize
    by_cases h1 : symbolicSampleSize = kSample32
    · simp [h1]
    · by_cases h2 : symbolicSampleSize = kSample64
      · simp [h2]
      · simp [h1, h2]
  · unfold canProcessSampleSize
    by_cases h1 : symbolicSampleSize = kSample32
    · simp [h1]
    · by_cases h2 : symbolicSampleSize = kSample64
      · simp [h2]
      · simp [h1, h2, kResultTrue, kResultFalse]

/-! ## C20: activation -/

/-- Claim C20 (activation resets the meter).  For every plugin state and for
activation as for deactivation, after `setActive` the cached metering value
`outputGainOld` is `0.f` (the all-zero pattern) and the model is as before. -/
theorem setActive_resets_meter (self : FogPad) (state : Bool) (parentResult : Int) :
    (setActive self state parentResult).2.1.outputGainOld = f0 ∧
    f0.bits = 0 ∧
    (setActive self state parentResult).2.1.model = self.model :=
  ⟨rfl, rfl, rfl⟩

/-! ## C21: the frame of a merge -/

/-- The sixteen members are all there are, each listed once. -/
theorem Field.all_complete : Field.all.length = 16 ∧ Field.all.Nodup ∧ ∀ fld, fld ∈ Field.all := by
  refine ⟨rfl, by decide, ?_⟩
  intro fld
  cases fld <;> decide

/-- Claim C21 (merge frame).  Let the case labels be pairwise different and
let the last queue of the batch carry the label of member `fld`.  Merging it
changes no member other than `fld`: every other member has after
`FogPad::process` the value that the batch without this queue gives it (its
value before the call when the queue is alone).  And the labels are bound to
sixteen different members: the switch assigns under the label of a member to
that member, two members with one label are the same member, and there are
sixteen members. -/
theorem process_merge_frame (ids : ParamIds) (fp : FloatEnv) (hd : ids.Distinct)
    (self : FogPad) (data : ProcessData) (limiterGR : Float32)
    (before : List (Option ParamValueQueue)) (q : ParamValueQueue) (fld : Field)
    (hq : data.inputParameterChanges = some (before ++ [some q]))
    (hid : q.getParameterId = ids.labelOf fld) :
    (∀ other, other ≠ fld →
      (process ids fp self data limiterGR).2.1.model.get other =
        (process ids fp self { data with inputParameterChanges := some before }
          limiterGR).2.1.model.get other) ∧
    (before = [] → ∀ other, other ≠ fld →
      (process ids fp self data limiterGR).2.1.model.get other = self.model.get other) ∧
    (∀ f, ids.fieldOf (ids.labelOf f) = some f) ∧
    (∀ f g, ids.labelOf f = ids.labelOf g → f = g) ∧
    Field.all.length = 16 ∧ Field.all.Nodup := by
  have hbound : ∀ f, ids.fieldOf (ids.labelOf f) = some f := fieldOf_labelOf ids hd
  have hframe : ∀ m : ParameterModel, ∀ other, other ≠ fld →
      (mergeStep ids fp m (some q)).get other = m.get other := by
    intro m other hne
    exact mergeStep_get_of_targets ids fp m (some q) (ids.labelOf fld) fld other (hbound fld)
      (by simp [targets, hid]) hne
  refine ⟨?_, ?_, hbound, ?_, Field.all_complete.1, Field.all_complete.2.1⟩
  · intro other hne
    simp only [process_model_eq_mergeModel, ProcessData.paramQueues, hq, mergeModel_append,
      mergeModel_cons]
    exact hframe _ other hne
  · intro hb other hne
    subst hb
    simp only [process_model_eq_mergeModel, ProcessData.paramQueues, hq, List.nil_append,
      mergeModel_cons]
    exact hframe _ other hne
  · intro f g hfg
    have h := hbound f
    rw [hfg, hbound g] at h
    exact (Option.some.inj h).symm

/-- Claim C21, at a block whose only queue is for `kDelayMixId`: the member
`fFilterCutoff` keeps its value. -/
theorem process_merge_frame_witness :
    (process consecutiveIds sampleFloatEnv sampleFogPad
      (sampleBlock (some [some ⟨3, [⟨0, d2⟩]⟩]) none) f0).2.1.model.get Field.fFilterCutoff =
      sampleFogPad.model.get Field.fFilterCutoff :=
  (process_merge_frame consecutiveIds sampleFloatEnv (by decide) sampleFogPad
    (sampleBlock (some [some ⟨3, [⟨0, d2⟩]⟩]) none) f0 [] ⟨3, [⟨0, d2⟩]⟩ Field.fDelayMix
    rfl rfl).2.1 rfl Field.fFilterCutoff (by decide)

/-! ## C22: the cached metering value -/

/-- After a block with buses the cache holds what the limiter reported. -/
theorem process_outputGainOld_of_buses (ids : ParamIds) (fp : FloatEnv) (self : FogPad)
    (data : ProcessData) (limiterGR : Float32)
    (hin : data.numInputs ≠ 0) (hout : data.numOutputs ≠ 0) :
    (process ids fp self data limiterGR).2.1.outputGainOld = limiterGR := by
  unfold process
  simp only
  rw [if_neg (by simp [hin, hout])]
  split
  · rfl
  · rename_i hne
    unfold ProcessData.numInputs at hin
    unfold ProcessData.numOutputs at hout
    cases hi : data.inputs with
    | nil => simp [hi] at hin
    | cons i is =>
      cases ho : data.outputs with
      | nil => simp [ho] at hout
      | cons o os => exact absurd ho (hne i is o os hi)

/-- The cache after any block: the limiter's value when the block has buses,
the old cache otherwise. -/
theorem process_outputGainOld (ids : ParamIds) (fp : FloatEnv) (self : FogPad)
    (data : ProcessData) (limiterGR : Float32) :
    (process ids fp self data limiterGR).2.1.outputGainOld =
      if data.hasBuses then limiterGR else self.outputGainOld := by
  by_cases h : data.numInputs = 0 ∨ data.numOutputs = 0
  · rw [process_of_no_buses ids fp self data limiterGR h, if_neg]
    · exact foldl_paramQueue_outputGainOld ids fp _ self
    · rcases h with h | h <;> simp [ProcessData.hasBuses, h]
  · rw [not_or] at h
    rw [process_outputGainOld_of_buses ids fp self data limiterGR h.1 h.2, if_pos]
    simp [ProcessData.hasBuses, h.1, h.2]

/-- The cache after a sequence of blocks is the metering value of the last
block with buses. -/
theorem processBlocks_outputGainOld (ids : ParamIds) (fp : FloatEnv)
    (blocks : List (ProcessData × Float32)) (self : FogPad) :
    (processBlocks ids fp self blocks).outputGainOld = lastMeter self.outputGainOld blocks := by
  induction blocks generalizing self with
  | nil => rfl
  | cons b blocks ih =>
    simp only [processBlocks, lastMeter, List.foldl_cons] at ih ⊢
    rw [ih, process_outputGainOld]

/-- A block whose output parameter changes come back altered has buses and a
metering value that differs from the cache. -/
theorem process_emits_only_on_change (ids : ParamIds) (fp : FloatEnv) (self : FogPad)
    (data : ProcessData) (limiterGR : Float32)
    (hemit : (process ids fp self data limiterGR).2.2.outputParameterChanges ≠
      data.outputParameterChanges) :
    data.hasBuses = true ∧ Float32.ne self.outputGainOld limiterGR = true := by
  by_cases h : data.numInputs = 0 ∨ data.numOutputs = 0
  · rw [process_of_no_buses ids fp self data limiterGR h] at hemit
    exact absurd rfl hemit
  · rw [not_or] at h
    rw [process_output_of_buses ids fp self data limiterGR h.1 h.2] at hemit
    refine ⟨by simp [ProcessData.hasBuses, h.1, h.2], ?_⟩
    unfold process_writeOutput at hemit
    cases hc : data.outputParameterChanges with
    | none => rw [hc] at hemit; exact absurd rfl hemit
    | some changes =>
      rw [hc] at hemit
      by_contra hne
      apply hemit
      simp only [Bool.not_eq_true] at hne
      simp [hne]

/-- Claim C22 (meter cache update).  For a block with an input and an output
bus, whatever its sample size and whether or not a point is emitted, the
cached metering value `outputGainOld` after `FogPad::process` is the value
read from the limiter for that block.  Hence, when the block comes after any
sequence of earlier blocks: the cache it meets is the metering value of the
last earlier block that was processed (the cache at the start when there is
none, which is `0.f` right after `setActive`), and if the call alters the
host's output parameter changes, that is a point is emitted, then the block's
metering value differs (`!=`) from that value. -/
theorem process_meter_cache (ids : ParamIds) (fp : FloatEnv) (self : FogPad)
    (earlier : List (ProcessData × Float32)) (data : ProcessData) (limiterGR : Float32)
    (hin : data.numInputs ≠ 0) (hout : data.numOutputs ≠ 0) :
    (process ids fp (processBlocks ids fp self earlier) data limiterGR).2.1.outputGainOld =
      limiterGR ∧
    (processBlocks ids fp self earlier).outputGainOld = lastMeter self.outputGainOld earlier ∧
    ((process ids fp (processBlocks ids fp self earlier) data
        limiterGR).2.2.outputParameterChanges ≠ data.outputParameterChanges →
      Float32.ne (lastMeter self.outputGainOld earlier) limiterGR = true) ∧
    (∀ (prior : FogPad) (state : Bool) (parentResult : Int),
      (process ids fp (setActive prior state parentResult).2.1 data
          limiterGR).2.2.outputParameterChanges ≠ data.outputParameterChanges →
        Float32.ne f0 limiterGR = true) := by
  refine ⟨process_outputGainOld_of_buses ids fp _ data limiterGR hin hout,
    processBlocks_outputGainOld ids fp earlier self, ?_, ?_⟩
  · intro hemit
    rw [← processBlocks_outputGainOld ids fp earlier self]
    exact (process_emits_only_on_change ids fp _ data limiterGR hemit).2
  · intro prior state parentResult hemit
    exact (process_emits_only_on_change ids fp _ data limiterGR hemit).2

/-- Claim C22, at a double-precision block that follows a single-precision
block with metering value `1.f` and a block without buses: the cache holds
`.5f` afterwards, and it held `1.f` before. -/
theorem process_meter_cache_witness :
    (process consecutiveIds sampleFloatEnv
      (processBlocks consecutiveIds sampleFloatEnv sampleFogPad
        [(sampleBlock none (some emptyOutput), f1),
         ({ sampleBlock none (some emptyOutput) with inputs := [] }, f0_75)])
      { sampleBlock none (some emptyOutput) with symbolicSampleSize := kSample64 }
      f0_5).2.1.outputGainOld = f0_5 ∧
    (processBlocks consecutiveIds sampleFloatEnv sampleFogPad
        [(sampleBlock none (some emptyOutput), f1),
         ({ sampleBlock none (some emptyOutput) with inputs := [] }, f0_75)]).outputGainOld =
      f1 :=
  ⟨(process_meter_cache consecutiveIds sampleFloatEnv sampleFogPad
      [(sampleBlock none (some emptyOutput), f1),
       ({ sampleBlock none (some emptyOutput) with inputs := [] }, f0_75)]
      { sampleBlock none (some emptyOutput) with symbolicSampleSize := kSample64 }
      f0_5 (by decide) (by decide)).1,
    by decide⟩

end Igorski
